import Mathlib

/-!
Formal model of the instrument rendering engine in `src/lib.rs`.

Modelling conventions:

* `f64` / `f32` arithmetic is modelled as exact rational arithmetic over `ℚ`;
  decimal literals denote their exact decimal values, and the constant
  `std::f64::consts::PI` is modelled by the exact value of that `f64`
  constant, `884279719003555 / 2^48` (so `PI * 1.5` and `FRAC_PI_2`, which
  are exact in `f64`, stay exact here).
* Hardware transcendental intrinsics (`cos`, `sin`, `atan2`, `sqrt`) and the
  font rasterizer (`rusttype`) are external collaborators; they enter the
  model as explicit function parameters (`FloatOps`, `TextRenderer`).
* Integer casts keep Rust semantics: `as usize` wraps modulo `2^64`,
  `f64 as i32` truncates toward zero and saturates, `f32 as u8` saturates.
* `HashMap<String, f64>` update messages are modelled by a record with one
  optional field per key the engine reads, plus a list of unread entries.
-/

/-- Exact rational value of the f64 constant `std::f64::consts::PI`. -/
def pi64 : ℚ := 884279719003555 / 281474976710656

/-- Rust `f64::clamp` / `f32::clamp` (callers always pass `lo ≤ hi`). -/
def rclamp (x lo hi : ℚ) : ℚ := if x < lo then lo else if hi < x then hi else x

/-- Rust `f32::round` / `f64::round`: round half away from zero. -/
def rust_round (q : ℚ) : ℤ := if q < 0 then -⌊-q + 1/2⌋ else ⌊q + 1/2⌋

/-- Rust `f64::trunc` (also the rounding used by `as i32` style casts). -/
def rust_trunc (q : ℚ) : ℤ := if q < 0 then -⌊-q⌋ else ⌊q⌋

/-- Saturating cast of an (already rounded) float to `u8`, as in `as u8`. -/
def i_to_u8 (z : ℤ) : ℕ := (min 255 (max 0 z)).toNat

/-- Rust `as usize` cast of an `i32`/`i64` value: wraps modulo `2^64`. -/
def i_to_usize (z : ℤ) : ℕ := (z % (2 : ℤ) ^ 64).toNat

/-- Rust `f64 as i32`: truncate toward zero, saturating at the i32 bounds. -/
def q_to_i32 (q : ℚ) : ℤ := max (-(2 ^ 31)) (min ((2 : ℤ) ^ 31 - 1) (rust_trunc q))

/-- Rust `x.round() as i32`: round half away from zero, then saturate. -/
def q_round_to_i32 (q : ℚ) : ℤ := max (-(2 ^ 31)) (min ((2 : ℤ) ^ 31 - 1) (rust_round q))

/-- Rust `x.round() as i64`: round half away from zero, then saturate. -/
def q_round_to_i64 (q : ℚ) : ℤ := max (-(2 ^ 63)) (min ((2 : ℤ) ^ 63 - 1) (rust_round q))

/-- Inclusive `i32` range `lo..=hi` as a list of integers. -/
def int_range (lo hi : ℤ) : List ℤ := (List.range (hi + 1 - lo).toNat).map (fun k => lo + (k : ℤ))

/- ============================================================
   Canvas and the single compositing primitive (`set_pixel`)
   ============================================================ -/

/-- Model of `set_pixel` from `src/lib.rs`: the single alpha-compositing primitive.
The frame is a byte buffer, 4 bytes (RGBA) per pixel; out-of-bounds
coordinates are silently ignored. -/
def set_pixel (frame : List ℕ) (width : ℕ) (x y : ℕ) (r g b : ℕ) (alpha : ℚ) : List ℕ :=
  if x < width ∧ y < frame.length / (width * 4) then
    let idx := (y * width + x) * 4
    let a : ℚ := (255 * alpha) / 255
    let d0 : ℚ := (frame.getD idx 0 : ℕ)
    let d1 : ℚ := (frame.getD (idx + 1) 0 : ℕ)
    let d2 : ℚ := (frame.getD (idx + 2) 0 : ℕ)
    let o0 := i_to_u8 (rust_round ((r : ℚ) * a + d0 * (1 - a)))
    let o1 := i_to_u8 (rust_round ((g : ℚ) * a + d1 * (1 - a)))
    let o2 := i_to_u8 (rust_round ((b : ℚ) * a + d2 * (1 - a)))
    ((((frame.set idx o0).set (idx + 1) o1).set (idx + 2) o2).set (idx + 3) 255)
  else frame

/- Helper lemmas about the numeric casts. -/

theorem rust_round_natCast (n : ℕ) : rust_round (n : ℚ) = (n : ℤ) := by
  unfold rust_round
  rw [if_neg (not_lt.mpr (by positivity))]
  rw [Int.floor_eq_iff]
  push_cast
  constructor <;> linarith

theorem i_to_u8_of_le (z : ℤ) (h0 : 0 ≤ z) (h255 : z ≤ 255) : (i_to_u8 z : ℤ) = z := by
  unfold i_to_u8
  rw [max_eq_right h0, min_eq_right h255, Int.toNat_of_nonneg h0]

theorem rust_round_nonneg (q : ℚ) (h : 0 ≤ q) : 0 ≤ rust_round q := by
  unfold rust_round
  rw [if_neg (not_lt.mpr h)]
  exact Int.floor_nonneg.mpr (by linarith)

theorem rust_round_le_of_le (q : ℚ) (h0 : 0 ≤ q) (h : q ≤ 255) : rust_round q ≤ 255 := by
  unfold rust_round
  rw [if_neg (not_lt.mpr h0)]
  have h2 : ⌊q + 1/2⌋ < (256 : ℤ) := Int.floor_lt.mpr (by push_cast; linarith)
  omega

theorem list_set_getD_self (l : List ℕ) (i : ℕ) : l.set i (l.getD i 0) = l := by
  induction l generalizing i with
  | nil => simp
  | cons a t ih =>
    cases i with
    | zero => simp [List.getD_cons_zero]
    | succ j =>
      simp only [List.getD_cons_succ, List.set_cons_succ]
      rw [ih]

/-- In-bounds pixel writes stay inside the frame buffer. -/
theorem pixel_index_lt (frame : List ℕ) (width x y : ℕ)
    (hx : x < width) (hy : y < frame.length / (width * 4)) :
    (y * width + x) * 4 + 3 < frame.length := by
  have h1 : y + 1 ≤ frame.length / (width * 4) := hy
  have h2 : (y + 1) * (width * 4) ≤ frame.length / (width * 4) * (width * 4) :=
    Nat.mul_le_mul_right _ h1
  have h3 : frame.length / (width * 4) * (width * 4) ≤ frame.length := Nat.div_mul_le_self _ _
  have h4 : (y * width + x) * 4 + 4 ≤ (y + 1) * (width * 4) := by nlinarith
  omega

/-- C5. `set_pixel` on out-of-bounds coordinates (`x ≥ width` or
`y ≥ frame.len() / (width * 4)`) returns with the frame completely
unchanged, for any color and coverage; and for in-bounds coordinates the
four bytes it touches all lie inside the frame slice, so `set_pixel`
never indexes outside the frame. -/
theorem set_pixel_out_of_bounds_noop (frame : List ℕ) (width x y r g b : ℕ) (alpha : ℚ) :
    (¬(x < width ∧ y < frame.length / (width * 4)) →
      set_pixel frame width x y r g b alpha = frame) ∧
    (x < width → y < frame.length / (width * 4) →
      (y * width + x) * 4 + 3 < frame.length) := by
  constructor
  · intro h
    unfold set_pixel
    rw [if_neg h]
  · intro hx hy
    exact pixel_index_lt frame width x y hx hy

theorem set_pixel_out_of_bounds_noop_witness :
    set_pixel [1, 2, 3, 4] 1 5 0 9 9 9 (1/2) = [1, 2, 3, 4] ∧
    (0 * 2 + 1) * 4 + 3 < [255, 0, 0, 0, 255, 0, 0, 0].length :=
  ⟨(set_pixel_out_of_bounds_noop [1, 2, 3, 4] 1 5 0 9 9 9 (1/2)).1 (by decide),
   (set_pixel_out_of_bounds_noop [255, 0, 0, 0, 255, 0, 0, 0] 2 1 0 9 9 9 1).2
     (by decide) (by decide)⟩

/-- C4 counterexample: with coverage 0 on an in-bounds pixel whose alpha
byte is not `0xFF`, `set_pixel` does change the pixel's four bytes (it
rewrites the alpha byte to `0xFF`), refuting the claim that all four bytes
are left unchanged. -/
theorem set_pixel_cov_zero_changes_alpha_byte :
    set_pixel [10, 20, 30, 7] 1 0 0 5 6 9 0 ≠ [10, 20, 30, 7] := by
  have h : set_pixel [10, 20, 30, 7] 1 0 0 5 6 9 0 = [10, 20, 30, 7].set 3 255 := by
    unfold set_pixel
    rw [if_pos (by norm_num)]
    norm_num [i_to_u8, rust_round]
    decide
  rw [h]
  decide

/-- C4 (amended). For an in-bounds pixel: with coverage 0 the three color
bytes are left unchanged and only the alpha byte is rewritten to `0xFF`;
with coverage 1 the pixel becomes exactly `(r, g, b, 0xFF)`; and for any
coverage `a ∈ [0, 1]` each color channel becomes
`round(src * a + dst * (1 - a))` and the alpha byte is written as `0xFF`. -/
theorem set_pixel_blend_spec (frame : List ℕ) (width x y r g b : ℕ)
    (hx : x < width) (hy : y < frame.length / (width * 4))
    (hbytes : ∀ c ∈ frame, c ≤ 255) (hr : r ≤ 255) (hg : g ≤ 255) (hb : b ≤ 255) :
    set_pixel frame width x y r g b 0 = frame.set ((y * width + x) * 4 + 3) 255 ∧
    set_pixel frame width x y r g b 1 =
      ((((frame.set ((y * width + x) * 4) r).set ((y * width + x) * 4 + 1) g).set
          ((y * width + x) * 4 + 2) b).set ((y * width + x) * 4 + 3) 255) ∧
    (∀ alpha : ℚ, 0 ≤ alpha → alpha ≤ 1 →
      set_pixel frame width x y r g b alpha =
        ((((frame.set ((y * width + x) * 4)
            (rust_round ((r : ℚ) * alpha +
              (frame.getD ((y * width + x) * 4) 0 : ℕ) * (1 - alpha))).toNat).set
          ((y * width + x) * 4 + 1)
            (rust_round ((g : ℚ) * alpha +
              (frame.getD ((y * width + x) * 4 + 1) 0 : ℕ) * (1 - alpha))).toNat).set
          ((y * width + x) * 4 + 2)
            (rust_round ((b : ℚ) * alpha +
              (frame.getD ((y * width + x) * 4 + 2) 0 : ℕ) * (1 - alpha))).toNat).set
          ((y * width + x) * 4 + 3) 255)) := by
  have hin : x < width ∧ y < frame.length / (width * 4) := ⟨hx, hy⟩
  set idx := (y * width + x) * 4 with hidxdef
  have hd : ∀ j, frame.getD (idx + j) 0 ≤ 255 := by
    intro j
    by_cases hj : idx + j < frame.length
    · rw [List.getD_eq_getElem frame 0 hj]
      exact hbytes _ (List.getElem_mem hj)
    · rw [List.getD_eq_getElem?_getD, List.getElem?_eq_none (le_of_not_lt hj)]
      simp
  have main : ∀ alpha : ℚ, 0 ≤ alpha → alpha ≤ 1 →
      set_pixel frame width x y r g b alpha =
        ((((frame.set idx
            (rust_round ((r : ℚ) * alpha + (frame.getD idx 0 : ℕ) * (1 - alpha))).toNat).set
          (idx + 1)
            (rust_round ((g : ℚ) * alpha + (frame.getD (idx + 1) 0 : ℕ) * (1 - alpha))).toNat).set
          (idx + 2)
            (rust_round ((b : ℚ) * alpha + (frame.getD (idx + 2) 0 : ℕ) * (1 - alpha))).toNat).set
          (idx + 3) 255) := by
    intro alpha h0 h1
    have ha : (255 * alpha) / 255 = alpha := by ring
    have hch : ∀ (s d : ℕ), s ≤ 255 → d ≤ 255 →
        i_to_u8 (rust_round ((s : ℚ) * alpha + (d : ℚ) * (1 - alpha))) =
          (rust_round ((s : ℚ) * alpha + (d : ℚ) * (1 - alpha))).toNat := by
      intro s d hs hd255
      have hnn : (0 : ℚ) ≤ (s : ℚ) * alpha + (d : ℚ) * (1 - alpha) := by
        have hs0 := mul_nonneg (by positivity : (0:ℚ) ≤ (s : ℚ)) h0
        have hd0 := mul_nonneg (by positivity : (0:ℚ) ≤ (d : ℚ)) (by linarith : (0:ℚ) ≤ 1 - alpha)
        linarith
      have hub : (s : ℚ) * alpha + (d : ℚ) * (1 - alpha) ≤ 255 := by
        have h1' : (s : ℚ) * alpha ≤ 255 * alpha :=
          mul_le_mul_of_nonneg_right (by exact_mod_cast hs) h0
        have h2' : (d : ℚ) * (1 - alpha) ≤ 255 * (1 - alpha) :=
          mul_le_mul_of_nonneg_right (by exact_mod_cast hd255) (by linarith)
        nlinarith
      unfold i_to_u8
      rw [max_eq_right (rust_round_nonneg _ hnn),
        min_eq_right (rust_round_le_of_le _ hnn hub)]
    simp only [set_pixel]
    rw [if_pos hin]
    simp only [← hidxdef, ha]
    rw [hch r _ hr (by simpa using hd 0), hch g _ hg (hd 1), hch b _ hb (hd 2)]
  refine ⟨?_, ?_, main⟩
  · have h := main 0 le_rfl zero_le_one
    have hsimp : ∀ (s j : ℕ),
        (rust_round ((s : ℚ) * 0 + (frame.getD (idx + j) 0 : ℕ) * (1 - 0))).toNat =
          frame.getD (idx + j) 0 := by
      intro s j
      have he : ((s : ℚ) * 0 + (frame.getD (idx + j) 0 : ℕ) * (1 - 0)) =
          ((frame.getD (idx + j) 0 : ℕ) : ℚ) := by ring
      rw [he, rust_round_natCast]
      simp
    rw [h]
    have h0' := hsimp r 0
    have h1' := hsimp g 1
    have h2' := hsimp b 2
    rw [Nat.add_zero] at h0'
    rw [h0', h1', h2', list_set_getD_self, list_set_getD_self, list_set_getD_self]
  · have h := main 1 zero_le_one le_rfl
    have hsimp : ∀ (s j : ℕ),
        (rust_round ((s : ℚ) * 1 + (frame.getD (idx + j) 0 : ℕ) * (1 - 1))).toNat = s := by
      intro s j
      have he : ((s : ℚ) * 1 + (frame.getD (idx + j) 0 : ℕ) * (1 - 1)) = ((s : ℕ) : ℚ) := by ring
      rw [he, rust_round_natCast]
      simp
    rw [h]
    have h0' := hsimp r 0
    have h1' := hsimp g 1
    have h2' := hsimp b 2
    rw [Nat.add_zero] at h0'
    rw [h0', h1', h2']

theorem set_pixel_blend_spec_witness :
    set_pixel [10, 20, 30, 7] 1 0 0 100 150 200 0 =
      [10, 20, 30, 7].set ((0 * 1 + 0) * 4 + 3) 255 :=
  (set_pixel_blend_spec [10, 20, 30, 7] 1 0 0 100 150 200 (by decide) (by decide)
    (by decide) (by decide) (by decide) (by decide)).1

/- ============================================================
   Exponential smoothing animation (`lerp`, `Needle`)
   ============================================================ -/

/-- The `lerp` helper from `src/lib.rs`:
`current + (target - current) * 0.1` (fixed smoothing coefficient 0.1). -/
def lerp (current target : ℚ) : ℚ := current + (target - current) * (1/10)

/-- The animated needle: normalized position, target position, random phase. -/
structure Needle where
  pos : ℚ
  target_pos : ℚ
  phase : ℚ
deriving DecidableEq

/-- Model of `Needle::new()`; the phase is drawn from the thread rng, supplied here. -/
def Needle.new (phase : ℚ) : Needle := { pos := 1/2, target_pos := 1/2, phase := phase }

/-- Model of `Needle::set_target_pos`: clamps the target into [0, 1]. -/
def Needle.set_target_pos (nd : Needle) (target : ℚ) : Needle :=
  { nd with target_pos := rclamp target 0 1 }

/-- Model of `Needle::update_position`: one exponential smoothing step toward the
target, then clamp into [0, 1]. -/
def Needle.update_position (nd : Needle) : Needle :=
  { nd with pos := rclamp (lerp nd.pos nd.target_pos) 0 1 }

/-- Model of `Needle::update_random`, with the rng draws passed in explicitly: the
phase advances by `delta`, and (with probability 0.01 in the source) a
fresh random target `retarget = some t` replaces the current one. -/
def Needle.update_random (nd : Needle) (delta : ℚ) (retarget : Option ℚ) : Needle :=
  { nd with
    phase := nd.phase + delta
    target_pos := match retarget with | some t => t | none => nd.target_pos }

/-- n repeated calls of `Needle::update_position`. -/
def Needle.advance_iter (nd : Needle) : ℕ → Needle
  | 0 => nd
  | n + 1 => (Needle.advance_iter nd n).update_position

theorem rclamp_of_le_of_le (x lo hi : ℚ) (h1 : lo ≤ x) (h2 : x ≤ hi) : rclamp x lo hi = x := by
  unfold rclamp
  rw [if_neg (not_lt.mpr h1), if_neg (not_lt.mpr h2)]

theorem rclamp_mem (x lo hi : ℚ) (h : lo ≤ hi) :
    lo ≤ rclamp x lo hi ∧ rclamp x lo hi ≤ hi := by
  unfold rclamp
  split_ifs with h1 h2
  · exact ⟨le_refl lo, h⟩
  · exact ⟨h, le_refl hi⟩
  · push_neg at h1 h2
    exact ⟨h1, h2⟩

theorem lerp_mem (p t : ℚ) (hp0 : 0 ≤ p) (hp1 : p ≤ 1) (ht0 : 0 ≤ t) (ht1 : t ≤ 1) :
    0 ≤ lerp p t ∧ lerp p t ≤ 1 := by
  unfold lerp
  constructor <;> linarith

theorem advance_iter_props (t p0 ph : ℚ)
    (ht0 : 0 ≤ t) (ht1 : t ≤ 1) (hp0 : 0 ≤ p0) (hp1 : p0 ≤ 1) (n : ℕ) :
    (Needle.advance_iter ⟨p0, t, ph⟩ n).target_pos = t ∧
      0 ≤ (Needle.advance_iter ⟨p0, t, ph⟩ n).pos ∧
      (Needle.advance_iter ⟨p0, t, ph⟩ n).pos ≤ 1 ∧
      |(Needle.advance_iter ⟨p0, t, ph⟩ n).pos - t| ≤ (9/10) ^ n * |p0 - t| := by
  induction n with
  | zero =>
    refine ⟨rfl, hp0, hp1, ?_⟩
    simp [Needle.advance_iter]
  | succ n ih =>
    obtain ⟨htp, h0, h1, hd⟩ := ih
    have hq0 := h0
    have hq1 := h1
    set q := (Needle.advance_iter ⟨p0, t, ph⟩ n).pos with hq
    have hmem := lerp_mem q t hq0 hq1 ht0 ht1
    have hstep : (Needle.advance_iter ⟨p0, t, ph⟩ (n + 1)).pos = lerp q t := by
      show rclamp (lerp (Needle.advance_iter ⟨p0, t, ph⟩ n).pos
        (Needle.advance_iter ⟨p0, t, ph⟩ n).target_pos) 0 1 = lerp q t
      rw [htp, ← hq]
      exact rclamp_of_le_of_le _ _ _ hmem.1 hmem.2
    have htr : (Needle.advance_iter ⟨p0, t, ph⟩ (n + 1)).target_pos = t := htp
    refine ⟨htr, ?_, ?_, ?_⟩
    · rw [hstep]; exact hmem.1
    · rw [hstep]; exact hmem.2
    · rw [hstep]
      have hl : lerp q t - t = (9/10) * (q - t) := by unfold lerp; ring
      rw [hl, abs_mul, abs_of_pos (by norm_num : (0:ℚ) < 9/10)]
      calc 9/10 * |q - t| ≤ 9/10 * ((9/10) ^ n * |p0 - t|) := by
            apply mul_le_mul_of_nonneg_left hd (by norm_num)
        _ = (9/10) ^ (n + 1) * |p0 - t| := by ring

/-- C1. With a fixed target `t ∈ [0,1]` and smoothing coefficient 0.1,
every `Needle::update_position` call replaces `pos` by
`pos + (target_pos - pos) * 0.1` clamped into [0,1]; starting from any
`pos0 ∈ [0,1]` the position never leaves [0,1] at any intermediate step,
after `ceil(log(1e-6)/log(0.9)) = 132` calls (or more) the distance to the
target is at most `1e-6`, and 132 is exactly that ceiling. -/
theorem needle_smoothing_convergence (t p0 ph : ℚ)
    (ht0 : 0 ≤ t) (ht1 : t ≤ 1) (hp0 : 0 ≤ p0) (hp1 : p0 ≤ 1) :
    (∀ nd : Needle, nd.update_position =
        { nd with pos := rclamp (nd.pos + (nd.target_pos - nd.pos) * (1/10)) 0 1 }) ∧
    (∀ n : ℕ, 0 ≤ (Needle.advance_iter ⟨p0, t, ph⟩ n).pos ∧
        (Needle.advance_iter ⟨p0, t, ph⟩ n).pos ≤ 1) ∧
    (∀ n : ℕ, 132 ≤ n → |(Needle.advance_iter ⟨p0, t, ph⟩ n).pos - t| ≤ 1/1000000) ∧
    ⌈Real.log (1/1000000) / Real.log (9/10)⌉ = (132 : ℤ) := by
  refine ⟨fun nd => rfl, ?_, ?_, ?_⟩
  · intro n
    have h := advance_iter_props t p0 ph ht0 ht1 hp0 hp1 n
    exact ⟨h.2.1, h.2.2.1⟩
  · intro n hn
    have h := (advance_iter_props t p0 ph ht0 ht1 hp0 hp1 n).2.2.2
    have habs : |p0 - t| ≤ 1 := abs_le.mpr ⟨by linarith, by linarith⟩
    have hmono : ((9:ℚ)/10) ^ n ≤ (9/10) ^ 132 :=
      pow_le_pow_of_le_one (by norm_num) (by norm_num) hn
    have h132 : ((9:ℚ)/10) ^ 132 ≤ 1/1000000 := by
      rw [div_pow, div_le_div_iff (by positivity) (by norm_num)]
      norm_num
    have hpow : ((9:ℚ)/10) ^ n * |p0 - t| ≤ 1/1000000 := by
      calc ((9:ℚ)/10) ^ n * |p0 - t| ≤ (9/10) ^ n * 1 := by
            apply mul_le_mul_of_nonneg_left habs (by positivity)
        _ = (9/10) ^ n := by ring
        _ ≤ (9/10) ^ 132 := hmono
        _ ≤ 1/1000000 := h132
    exact le_trans h hpow
  · have hlog9 : Real.log (9/10) < 0 := Real.log_neg (by norm_num) (by norm_num)
    have hb132 : ((9:ℝ)/10) ^ (132:ℕ) < 1/1000000 := by
      rw [div_pow, div_lt_div_iff (by positivity) (by norm_num)]
      norm_num
    have hb131 : (1/1000000 : ℝ) < ((9:ℝ)/10) ^ (131:ℕ) := by
      rw [div_pow, div_lt_div_iff (by norm_num) (by positivity)]
      norm_num
    rw [Int.ceil_eq_iff]
    constructor
    · have hlt : Real.log (1/1000000) < Real.log (((9:ℝ)/10) ^ (131:ℕ)) :=
        Real.log_lt_log (by norm_num) hb131
      rw [Real.log_pow] at hlt
      have h131 : (131 : ℝ) < Real.log (1/1000000) / Real.log (9/10) := by
        rw [lt_div_iff_of_neg hlog9]
        calc Real.log (1/1000000) < (131:ℕ) * Real.log (9/10) := hlt
          _ = (131:ℝ) * Real.log (9/10) := by norm_num
          _ ≤ (131:ℝ) * Real.log (9/10) := le_refl _
      push_cast
      linarith
    · have hlt : Real.log (((9:ℝ)/10) ^ (132:ℕ)) < Real.log (1/1000000) :=
        Real.log_lt_log (by positivity) hb132
      rw [Real.log_pow] at hlt
      rw [div_le_iff_of_neg hlog9]
      push_cast
      push_cast at hlt
      linarith

theorem needle_smoothing_convergence_witness :
    |(Needle.advance_iter ⟨0, 1, 0⟩ 132).pos - 1| ≤ 1/1000000 :=
  (needle_smoothing_convergence 1 0 0 (by norm_num) (by norm_num) (by norm_num)
    (by norm_num)).2.2.1 132 (le_refl 132)

/- ============================================================
   Value normalization (`AppState::update` / `Needle::set_target_pos`)
   ============================================================ -/

/-- The normalized position computed in `AppState::update` for an incoming
needle value: `((value - min_value) / (max_value - min_value)).clamp(0.0, 1.0)`. -/
def normalized_pos (value min_value max_value : ℚ) : ℚ :=
  rclamp ((value - min_value) / (max_value - min_value)) 0 1

/-- C7. For a non-degenerate range (`max > min`) the normalized position is
`clamp((v - min)/(max - min), 0, 1)`: it always lies in [0,1]; for `v`
inside the range the clamp does not alter the quotient; for `v < min` it is
exactly 0 and for `v > max` it is exactly 1. -/
theorem normalized_pos_spec (v mn mx : ℚ) (h : mn < mx) :
    (0 ≤ normalized_pos v mn mx ∧ normalized_pos v mn mx ≤ 1) ∧
    (mn ≤ v → v ≤ mx → normalized_pos v mn mx = (v - mn) / (mx - mn)) ∧
    (v < mn → normalized_pos v mn mx = 0) ∧
    (mx < v → normalized_pos v mn mx = 1) := by
  have hd : (0:ℚ) < mx - mn := by linarith
  refine ⟨rclamp_mem _ 0 1 (by norm_num), ?_, ?_, ?_⟩
  · intro h1 h2
    apply rclamp_of_le_of_le
    · exact div_nonneg (by linarith) (le_of_lt hd)
    · rw [div_le_one hd]
      linarith
  · intro h1
    have hneg : (v - mn) / (mx - mn) < 0 := div_neg_of_neg_of_pos (by linarith) hd
    unfold normalized_pos rclamp
    rw [if_pos hneg]
  · intro h1
    have hgt : 1 < (v - mn) / (mx - mn) := (one_lt_div hd).mpr (by linarith)
    unfold normalized_pos rclamp
    rw [if_neg (not_lt.mpr (by linarith)), if_pos hgt]

theorem normalized_pos_spec_witness :
    normalized_pos 150 0 100 = 1 ∧ normalized_pos 25 0 100 = (25 - 0) / (100 - 0) :=
  ⟨(normalized_pos_spec 150 0 100 (by norm_num)).2.2.2 (by norm_num),
   (normalized_pos_spec 25 0 100 (by norm_num)).2.1 (by norm_num) (by norm_num)⟩

/- ============================================================
   Tapered thick line: the per-pixel taper law
   ============================================================ -/

/-- The per-pixel local thickness inside `draw_thick_line_tapered_aa`:
`thickness * (1.0 - t * 0.95)` at clamped parametric position `t`; the
effective half-width is this divided by 2 (the plain thick line uses the
constant half-width `thickness / 2`). -/
def tapered_local_thickness (thickness t : ℚ) : ℚ := thickness * (1 - t * (95/100))

/-- C6. In the tapered thick line primitive the effective half-width at
clamped parametric position `s` equals `(thickness/2) * (1 - 0.95*s)`; at
`s = 0` it equals the non-tapered half-width `thickness/2`; for every
`s ≤ 1` with positive thickness it never reaches zero; and on [0,1] its
minimum is `0.05 * thickness/2`, attained at `s = 1`. -/
theorem tapered_half_width_spec (thickness : ℚ) (ht : 0 < thickness) :
    (∀ s : ℚ, tapered_local_thickness thickness s / 2 = thickness / 2 * (1 - (95/100) * s)) ∧
    tapered_local_thickness thickness 0 / 2 = thickness / 2 ∧
    (∀ s : ℚ, s ≤ 1 → 0 < tapered_local_thickness thickness s / 2) ∧
    tapered_local_thickness thickness 1 / 2 = (5/100) * (thickness / 2) ∧
    (∀ s : ℚ, 0 ≤ s → s ≤ 1 →
      (5/100) * (thickness / 2) ≤ tapered_local_thickness thickness s / 2) := by
  refine ⟨?_, ?_, ?_, ?_, ?_⟩
  · intro s; unfold tapered_local_thickness; ring
  · unfold tapered_local_thickness; ring
  · intro s hs
    unfold tapered_local_thickness
    nlinarith
  · unfold tapered_local_thickness; ring
  · intro s h0 h1
    unfold tapered_local_thickness
    nlinarith

theorem tapered_half_width_spec_witness :
    tapered_local_thickness 4 0 / 2 = 4 / 2 ∧
    tapered_local_thickness 4 1 / 2 = (5/100) * (4 / 2) :=
  ⟨(tapered_half_width_spec 4 (by norm_num)).2.1,
   (tapered_half_width_spec 4 (by norm_num)).2.2.2.1⟩

/- ============================================================
   Ring-arc angular containment (`render_arc_immediate`)
   ============================================================ -/

/-- The angle normalization at the top of `render_arc_immediate`: the end
angle is `start + span`; a negative start gets 2π added, an end at or past
2π gets 2π subtracted. -/
def arc_normalize (start_angle arc_span : ℚ) : ℚ × ℚ :=
  (if start_angle < 0 then start_angle + 2 * pi64 else start_angle,
   if 2 * pi64 ≤ start_angle + arc_span then start_angle + arc_span - 2 * pi64
   else start_angle + arc_span)

/-- The per-pixel in-arc test in the loop body of `render_arc_immediate`,
applied to the already-normalized bounds and the pixel's polar angle. -/
def arc_in_arc_core (start0 end0 angle : ℚ) : Bool :=
  let s := if start0 < 0 then start0 + 2 * pi64 else start0
  let e := if end0 < 0 then end0 + 2 * pi64 else end0
  if s < e then decide (s ≤ angle) && decide (angle ≤ e)
  else decide (angle ≥ s) || decide (angle ≤ e)

/-- The full in-arc test of `render_arc_immediate` as a function of the raw
start angle, span and pixel polar angle. -/
def arc_in_arc (start_angle arc_span angle : ℚ) : Bool :=
  arc_in_arc_core (arc_normalize start_angle arc_span).1
    (arc_normalize start_angle arc_span).2 angle

/-- C3. After normalizing start and end angles into [0, 2π), a pixel's
polar angle tests as inside the arc exactly when, in the non-wrapped case
`start < end`, `start ≤ angle ≤ end`, and in the wrapped case
`start > end`, `angle ≥ start` or `angle ≤ end`. -/
theorem arc_in_arc_spec (start_angle arc_span angle : ℚ)
    (hs : 0 ≤ (arc_normalize start_angle arc_span).1)
    (he : 0 ≤ (arc_normalize start_angle arc_span).2) :
    ((arc_normalize start_angle arc_span).1 < (arc_normalize start_angle arc_span).2 →
      (arc_in_arc start_angle arc_span angle = true ↔
        (arc_normalize start_angle arc_span).1 ≤ angle ∧
          angle ≤ (arc_normalize start_angle arc_span).2)) ∧
    ((arc_normalize start_angle arc_span).2 < (arc_normalize start_angle arc_span).1 →
      (arc_in_arc start_angle arc_span angle = true ↔
        ((arc_normalize start_angle arc_span).1 ≤ angle ∨
          angle ≤ (arc_normalize start_angle arc_span).2))) := by
  unfold arc_in_arc arc_in_arc_core
  rw [if_neg (not_lt.mpr hs), if_neg (not_lt.mpr he)]
  constructor
  · intro hlt
    rw [if_pos hlt]
    simp
  · intro hlt
    rw [if_neg (not_lt.mpr (le_of_lt hlt))]
    simp [ge_iff_le]

theorem arc_in_arc_spec_witness :
    arc_in_arc (35 * pi64 / 18) (pi64 / 9) (pi64 / 36) = true ∧
    arc_in_arc (35 * pi64 / 18) (pi64 / 9) (17 * pi64 / 9) = false := by
  have h1 := (arc_in_arc_spec (35 * pi64 / 18) (pi64 / 9) (pi64 / 36)
    (by norm_num [arc_normalize, pi64]) (by norm_num [arc_normalize, pi64])).2
    (by norm_num [arc_normalize, pi64])
  have h2 := (arc_in_arc_spec (35 * pi64 / 18) (pi64 / 9) (17 * pi64 / 9)
    (by norm_num [arc_normalize, pi64]) (by norm_num [arc_normalize, pi64])).2
    (by norm_num [arc_normalize, pi64])
  constructor
  · exact h1.mpr (Or.inr (by norm_num [arc_normalize, pi64]))
  · rw [Bool.eq_false_iff]
    intro hT
    rcases h2.mp hT with h | h
    · norm_num [arc_normalize, pi64] at h
    · norm_num [arc_normalize, pi64] at h

/- ============================================================
   Update messages, highlight bounds, and `AppState`
   ============================================================ -/

/-- One drained `HashMap<String, f64>` update message: one optional field
per key the engine reads, plus any unread extra entries. -/
structure ValueMap where
  needle1 : Option ℚ := none
  needle2 : Option ℚ := none
  readout : Option ℚ := none
  highlightlower : Option ℚ := none
  highlightupper : Option ℚ := none
  others : List (String × ℚ) := []
deriving DecidableEq

/-- Model of `HashMap::is_empty` on a drained message / on `current_values`. -/
def ValueMap.isEmpty (m : ValueMap) : Bool :=
  m.needle1.isNone && m.needle2.isNone && m.readout.isNone &&
    m.highlightlower.isNone && m.highlightupper.isNone && m.others.isEmpty

/-- The rng draws an `AppState::update` call may consume (needle creation
phases, idle-walk phase deltas and optional idle retargets). -/
structure Rng where
  phase1 : ℚ := 0
  phase2 : ℚ := 0
  delta1 : ℚ := 0
  delta2 : ℚ := 0
  retarget1 : Option ℚ := none
  retarget2 : Option ℚ := none
deriving DecidableEq

/-- The smoothed highlight band bounds. -/
structure HighlightBounds where
  lower : ℚ
  upper : ℚ
  target_lower : ℚ
  target_upper : ℚ
deriving DecidableEq

/-- Model of `HighlightBounds::new`. -/
def HighlightBounds.new (lower upper : ℚ) : HighlightBounds :=
  { lower := lower, upper := upper, target_lower := lower, target_upper := upper }

/-- Model of `HighlightBounds::set_target_bounds`. -/
def HighlightBounds.set_target_bounds (b : HighlightBounds) (lower upper : ℚ) : HighlightBounds :=
  { b with target_lower := lower, target_upper := upper }

/-- Model of `HighlightBounds::update_position`: one smoothing step of each bound. -/
def HighlightBounds.update_position (b : HighlightBounds) : HighlightBounds :=
  { b with lower := lerp b.lower b.target_lower, upper := lerp b.upper b.target_upper }

/-- Model of `HighlightBounds::get_bounds`. -/
def HighlightBounds.get_bounds (b : HighlightBounds) : ℚ × ℚ := (b.lower, b.upper)

/-- The per-instrument render-loop state (`AppState` in `src/lib.rs`). -/
structure AppState where
  needle1 : Option Needle
  needle2 : Option Needle
  current_values : ValueMap
  min_value : ℚ
  max_value : ℚ
  highlight_bounds : Option HighlightBounds
  highlight_override : Option (ℚ × ℚ)
deriving DecidableEq

/-- Model of `AppState::new`. -/
def AppState.new (min_value max_value : ℚ) : AppState :=
  { needle1 := none, needle2 := none, current_values := {}, min_value := min_value,
    max_value := max_value, highlight_bounds := none, highlight_override := none }

/-- The body of the drain loop in `AppState::update`, applied to a single
received message: replace `current_values`, create/update/destroy the two
needles, and (only when no command-line override is set) update or clear
the highlight bounds from `highlightlower`/`highlightupper`. -/
def AppState.apply_message (st : AppState) (rng : Rng) (values : ValueMap) : AppState :=
  { st with
    current_values := values,
    needle1 :=
      match values.needle1 with
      | some value =>
          some ((st.needle1.getD (Needle.new rng.phase1)).set_target_pos
            (normalized_pos value st.min_value st.max_value))
      | none => none,
    needle2 :=
      match values.needle2 with
      | some value =>
          some ((st.needle2.getD (Needle.new rng.phase2)).set_target_pos
            (normalized_pos value st.min_value st.max_value))
      | none => none,
    highlight_bounds :=
      if st.highlight_override.isNone then
        match values.highlightlower, values.highlightupper with
        | some lower, some upper =>
            (match st.highlight_bounds with
             | some b => some (b.set_target_bounds (min lower upper) (max lower upper))
             | none => some (HighlightBounds.new (min lower upper) (max lower upper)))
        | _, _ => none
      else st.highlight_bounds }

/-- The per-frame animation stepping at the end of `AppState::update`:
each present needle and the bounds advance one smoothing step. -/
def AppState.step_animations (st : AppState) : AppState :=
  { st with
    needle1 := st.needle1.map Needle.update_position,
    needle2 := st.needle2.map Needle.update_position,
    highlight_bounds := st.highlight_bounds.map HighlightBounds.update_position }

/-- The idle random-walk branch at the end of `AppState::update` (runs only
while `current_values` is empty). -/
def AppState.apply_idle (st : AppState) (rng : Rng) : AppState :=
  if st.current_values.isEmpty then
    { st with
      needle1 := st.needle1.map (fun nd => nd.update_random rng.delta1 rng.retarget1),
      needle2 := st.needle2.map (fun nd => nd.update_random rng.delta2 rng.retarget2) }
  else st

/-- Model of `AppState::update`: non-blockingly drain every pending message in send
order (each message totally overwrites its slots), then advance all
animations, then idle-walk if no values were ever received. -/
def AppState.update (st : AppState) (msgs : List ValueMap) (rng : Rng) : AppState :=
  ((msgs.foldl (fun s m => s.apply_message rng m) st).step_animations).apply_idle rng

/-- Model of `AppState::is_out_of_range`: strict comparison of the un-normalized
last-known needle values against the configured range. -/
def AppState.is_out_of_range (st : AppState) : Bool :=
  (match st.current_values.needle1 with
   | some value => decide (value < st.min_value) || decide (st.max_value < value)
   | none => false) ||
  (match st.current_values.needle2 with
   | some value => decide (value < st.min_value) || decide (st.max_value < value)
   | none => false)

/-- Model of `AppState::set_highlight_override`: records the command-line override
and makes the bounds target it. -/
def AppState.set_highlight_override (st : AppState) (lower upper : ℚ) : AppState :=
  { st with
    highlight_override := some (min lower upper, max lower upper),
    highlight_bounds :=
      match st.highlight_bounds with
      | some b => some (b.set_target_bounds (min lower upper) (max lower upper))
      | none => some (HighlightBounds.new (min lower upper) (max lower upper)) }

/-- The highlight bounds' smoothing targets, when bounds exist. -/
def bounds_targets (st : AppState) : Option (ℚ × ℚ) :=
  st.highlight_bounds.map (fun b => (b.target_lower, b.target_upper))

theorem apply_message_override_inv (st : AppState) (rng : Rng) (m : ValueMap)
    (p : ℚ × ℚ) (h : st.highlight_override = some p) :
    (st.apply_message rng m).highlight_override = some p ∧
    (st.apply_message rng m).highlight_bounds = st.highlight_bounds := by
  unfold AppState.apply_message
  simp [h]

theorem step_animations_bounds_inv (st : AppState) :
    (st.step_animations).highlight_override = st.highlight_override ∧
    bounds_targets st.step_animations = bounds_targets st ∧
    (st.step_animations).current_values = st.current_values ∧
    (st.step_animations).min_value = st.min_value ∧
    (st.step_animations).max_value = st.max_value := by
  unfold AppState.step_animations bounds_targets
  cases st.highlight_bounds <;> simp [HighlightBounds.update_position]

theorem apply_idle_bounds_inv (st : AppState) (rng : Rng) :
    (st.apply_idle rng).highlight_override = st.highlight_override ∧
    (st.apply_idle rng).highlight_bounds = st.highlight_bounds ∧
    (st.apply_idle rng).current_values = st.current_values ∧
    (st.apply_idle rng).min_value = st.min_value ∧
    (st.apply_idle rng).max_value = st.max_value := by
  unfold AppState.apply_idle
  split_ifs <;> simp

theorem update_override_inv (msgs : List ValueMap) (st : AppState) (rng : Rng)
    (p : ℚ × ℚ) (h : st.highlight_override = some p) :
    (st.update msgs rng).highlight_override = some p ∧
    bounds_targets (st.update msgs rng) = bounds_targets st := by
  have hfold : ∀ (l : List ValueMap) (s : AppState), s.highlight_override = some p →
      (l.foldl (fun s m => s.apply_message rng m) s).highlight_override = some p ∧
      (l.foldl (fun s m => s.apply_message rng m) s).highlight_bounds = s.highlight_bounds := by
    intro l
    induction l with
    | nil => intro s hs; exact ⟨hs, rfl⟩
    | cons m tl ih =>
      intro s hs
      have h1 := apply_message_override_inv s rng m p hs
      have h2 := ih (s.apply_message rng m) h1.1
      exact ⟨h2.1, h2.2.trans h1.2⟩
  have hf := hfold msgs st h
  unfold AppState.update
  set st' := msgs.foldl (fun s m => s.apply_message rng m) st
  have hstep := step_animations_bounds_inv st'
  have hidle := apply_idle_bounds_inv st'.step_animations rng
  constructor
  · rw [hidle.1, hstep.1, hf.1]
  · unfold bounds_targets
    rw [hidle.2.1]
    have := hstep.2.1
    unfold bounds_targets at this
    rw [this, hf.2]

/-- C8. Once `AppState::set_highlight_override` has been called, no
subsequently drained update messages — over any number of later
`AppState::update` calls, with any streamed `highlightlower` /
`highlightupper` pairs — ever change the highlight bounds' smoothing
targets or remove the bounds: they stay present and targeted at
`(min lower upper, max lower upper)` for the rest of the state's life. -/
theorem highlight_override_is_permanent (st0 : AppState) (lower upper : ℚ)
    (updates : List (List ValueMap × Rng)) :
    ∃ b : HighlightBounds,
      (updates.foldl (fun s u => s.update u.1 u.2)
          (st0.set_highlight_override lower upper)).highlight_bounds = some b ∧
      b.target_lower = min lower upper ∧ b.target_upper = max lower upper ∧
      (updates.foldl (fun s u => s.update u.1 u.2)
          (st0.set_highlight_override lower upper)).highlight_override =
        some (min lower upper, max lower upper) := by
  set p : ℚ × ℚ := (min lower upper, max lower upper) with hp
  have hbase : (st0.set_highlight_override lower upper).highlight_override = some p ∧
      bounds_targets (st0.set_highlight_override lower upper) = some p := by
    unfold AppState.set_highlight_override bounds_targets
    cases st0.highlight_bounds <;>
      simp [HighlightBounds.set_target_bounds, HighlightBounds.new]
  have hfold : ∀ (l : List (List ValueMap × Rng)) (s : AppState),
      s.highlight_override = some p → bounds_targets s = some p →
      (l.foldl (fun s u => s.update u.1 u.2) s).highlight_override = some p ∧
      bounds_targets (l.foldl (fun s u => s.update u.1 u.2) s) = some p := by
    intro l
    induction l with
    | nil => intro s h1 h2; exact ⟨h1, h2⟩
    | cons u tl ih =>
      intro s h1 h2
      have h3 := update_override_inv u.1 s u.2 p h1
      exact ih _ h3.1 (h3.2.trans h2)
  have hres := hfold updates _ hbase.1 hbase.2
  obtain ⟨b, hb, htg⟩ := Option.map_eq_some'.mp hres.2
  refine ⟨b, hb, ?_, ?_, hres.1⟩
  · have : (b.target_lower, b.target_upper) = p := htg
    rw [hp] at this
    exact congrArg Prod.fst this
  · have : (b.target_lower, b.target_upper) = p := htg
    rw [hp] at this
    exact congrArg Prod.snd this

/- ============================================================
   Configuration, dial geometry and draw commands
   ============================================================ -/

/-- External float intrinsics and the font-measuring collaborator:
`cos`/`sin`/`atan2`/`sqrt` are hardware f64 intrinsics;
`text_width z s` is `calculate_text_width` of the decimal string of the
integer `z` at font scale `s` (it reads the font file). -/
structure FloatOps where
  cos : ℚ → ℚ
  sin : ℚ → ℚ
  atan2 : ℚ → ℚ → ℚ
  sqrt : ℚ → ℚ
  text_width : ℤ → ℚ → ℤ

/-- An RGB color triple (`(u8, u8, u8)` in the source). -/
abbrev Color8 := ℕ × ℕ × ℕ

/-- Model of `InstrumentConfig` (the numeric fields the engine reads), with the
builder defaults of the source. -/
structure InstrumentConfig where
  range : ℚ × ℚ := (0, 100)
  dual_needle : Bool := false
  dial_margin : ℤ := 45
  dial_thickness : ℤ := 4
  dial_numbers_font_size : ℚ := 30
  dial_ticks_to_numbers_distance : ℚ := 30
  ticks_count : ℕ := 11
  minor_ticks_per_interval : ℕ := 5
  major_tick_length : ℤ := 40
  minor_tick_length : ℤ := 25
  major_tick_thickness : ℚ := 2
  minor_tick_thickness : ℚ := 1/2
  needle_length_factor : ℚ := 105/100
  needle_back_length : ℚ := 80
  needle_width : ℚ := 4
  use_secondary_complication : Bool := true
  secondary_dial_shift : ℤ := 130
  secondary_dial_size : ℚ := 7
  secondary_ticks_count : ℕ := 5
  secondary_tick_length : ℤ := 10
  secondary_dial_margin : ℤ := 15
  secondary_dial_thickness : ℤ := 2
  secondary_needle_length_factor : ℚ := 1
  secondary_needle_width : ℚ := 4
  secondary_needle_back_length : ℚ := 30
  secondary_dial_numbers_font_size : ℚ := 30
  secondary_dial_ticks_to_numbers_distance : ℚ := 30
  secondary_dial_dot_radius : ℤ := 8
  secondary_minor_ticks_per_interval : ℕ := 0
  secondary_minor_tick_length : ℤ := 4
  secondary_major_tick_thickness : ℚ := 2
  secondary_minor_tick_thickness : ℚ := 1/2
  readout_x_factor : ℚ := 69/100
  readout_y_factor : ℚ := 3/4
  readout_big_font_size : ℚ := 54
  readout_small_font_size : ℚ := 28
  readout_box_padding : ℤ := 30
  readout_box_thickness : ℚ := 4
  curved_text : String := "INSTRUMENT GAUGE"
  curved_text_font_size : ℚ := 30
  curved_text_radius_offset : ℚ := 15
  curved_text_arc_span : ℚ := pi64 * (23/100)
  curved_text_angle : ℚ := 3 * pi64 / 2
  highlight_band_width : ℤ := 35
  highlight_band_color : Color8 := (255, 0, 0)
  highlight_band_alpha : ℚ := 1
  highlight_band_edge_softness : ℚ := 1/200
  exclamation_mark_size : ℚ := 50
  dot_radius : ℤ := 6
deriving DecidableEq

/-- Dial geometry. -/
structure Dial where
  cx : ℤ
  cy : ℤ
  r : ℤ
  thickness : ℤ
  arc_span : ℚ
  start_angle : ℚ
deriving DecidableEq

/-- Model of `Dial::new`: primary dial from canvas size and configuration (270°
sweep starting pointing straight down). -/
def Dial.new (width height : ℕ) (config : InstrumentConfig) : Dial :=
  { cx := Int.tdiv (width : ℤ) 2
    cy := Int.tdiv (height : ℤ) 2
    r := Int.tdiv ((min width height : ℕ) : ℤ) 2 - config.dial_margin
    thickness := config.dial_thickness
    arc_span := pi64 * (3/2)
    start_angle := pi64 / 2 }

/-- Model of `Dial::new_complication`: the smaller secondary dial. -/
def Dial.new_complication (width height : ℕ) (config : InstrumentConfig) : Dial :=
  { cx := Int.tdiv (width : ℤ) 2
    cy := (q_to_i32 (((min width height : ℕ) : ℚ) / config.secondary_dial_size) -
            config.secondary_dial_margin) +
          config.secondary_dial_margin + config.secondary_dial_shift
    r := q_to_i32 (((min width height : ℕ) : ℚ) / config.secondary_dial_size) -
          config.secondary_dial_margin
    thickness := config.secondary_dial_thickness
    arc_span := pi64 * (3/2)
    start_angle := pi64 / 2 }

/-- The text content of a `Text` draw command: a dial number label, the
warning exclamation mark, or the integer/fractional readout strings. -/
inductive LabelText where
  | num (value : ℤ)
  | bang
  | int_part (value : ℤ)
  | frac_part (value : ℕ)
deriving DecidableEq

/-- The `DrawCommand` tagged union from `src/lib.rs`. -/
inductive DrawCommand where
  | Clear (color : Color8)
  | Arc (cx cy r thickness : ℤ) (start_angle arc_span : ℚ) (color : Color8)
  | HighlightBand (cx cy r : ℤ) (start_angle end_angle inner_radius outer_radius : ℚ)
  | Tick (cx cy r : ℤ) (angle : ℚ) (length : ℤ) (thickness : ℚ) (color : Color8)
  | Text (x y : ℤ) (text : LabelText) (font_size : ℚ) (color : Color8)
  | CurvedText (cx cy : ℤ) (radius : ℚ) (text : String) (font_size arc_span start_angle : ℚ)
      (color : Color8)
  | NeedleLine (x0 y0 x1 y1 : ℤ) (thickness : ℚ) (tapered : Bool) (color : Color8)
  | Circle (cx cy radius : ℤ) (color : Color8)
deriving DecidableEq

/- ============================================================
   Scene building (`build_*_commands`, `render_instrument`)
   ============================================================ -/

/-- The optional highlight band command at the head of
`build_dial_commands`. -/
def build_dial_highlight_commands (dial : Dial) (range : ℚ × ℚ)
    (highlight_range : Option (ℚ × ℚ)) (config : InstrumentConfig) : List DrawCommand :=
  match highlight_range with
  | some hl =>
      let norm_hl_start := rclamp ((hl.1 - range.1) / (range.2 - range.1)) 0 1
      let norm_hl_end := rclamp ((hl.2 - range.1) / (range.2 - range.1)) 0 1
      [DrawCommand.HighlightBand dial.cx dial.cy dial.r
        (dial.start_angle + dial.arc_span * norm_hl_start)
        (dial.start_angle + dial.arc_span * norm_hl_end)
        (config.highlight_band_width : ℚ) 0]
  | none => []

/-- One iteration of the tick loop of `build_dial_commands`: the major
tick, then the minor ticks of the interval, then the number label. -/
def dial_tick_group (ops : FloatOps) (dial : Dial) (range : ℚ × ℚ) (color : Color8)
    (config : InstrumentConfig) (i : ℕ) : List DrawCommand :=
  let t : ℚ := (i : ℚ) / ((config.ticks_count : ℚ) - 1)
  let angle := dial.start_angle + dial.arc_span * t
  [DrawCommand.Tick dial.cx dial.cy dial.r angle config.major_tick_length
      config.major_tick_thickness color]
  ++ (if i < config.ticks_count - 1 then
        (List.range config.minor_ticks_per_interval).map (fun j =>
          DrawCommand.Tick dial.cx dial.cy dial.r
            (dial.start_angle + dial.arc_span *
              (t + (((j + 1 : ℕ) : ℚ) /
                ((config.minor_ticks_per_interval : ℚ) * ((config.ticks_count : ℚ) - 1)))))
            config.minor_tick_length config.minor_tick_thickness color)
      else [])
  ++ [DrawCommand.Text
        (q_to_i32 ((dial.cx : ℚ) + ops.cos angle *
          ((dial.r : ℚ) - (config.major_tick_length : ℚ) - config.dial_ticks_to_numbers_distance)))
        (q_to_i32 ((dial.cy : ℚ) + ops.sin angle *
          ((dial.r : ℚ) - (config.major_tick_length : ℚ) - config.dial_ticks_to_numbers_distance)))
        (LabelText.num (q_round_to_i64 (range.1 + t * (range.2 - range.1))))
        config.dial_numbers_font_size color]

/-- Model of `build_dial_commands`: highlight band (when present), the dial arc,
then ticks and labels. -/
def build_dial_commands (ops : FloatOps) (dial : Dial) (range : ℚ × ℚ) (color : Color8)
    (highlight_range : Option (ℚ × ℚ)) (config : InstrumentConfig) : List DrawCommand :=
  build_dial_highlight_commands dial range highlight_range config
  ++ [DrawCommand.Arc dial.cx dial.cy dial.r dial.thickness dial.start_angle dial.arc_span color]
  ++ ((List.range config.ticks_count).map (dial_tick_group ops dial range color config)).flatten

/-- Model of `build_needle_commands`: tapered main line, straight back line, hub dot. -/
def build_needle_commands (ops : FloatOps) (needle : Needle) (dial : Dial) (color : Color8)
    (config : InstrumentConfig) : List DrawCommand :=
  let angle := dial.start_angle + dial.arc_span * needle.pos
  let needle_length := (dial.r : ℚ) * config.needle_length_factor
  [DrawCommand.NeedleLine dial.cx dial.cy
      (q_to_i32 ((dial.cx : ℚ) + ops.cos angle * needle_length))
      (q_to_i32 ((dial.cy : ℚ) + ops.sin angle * needle_length))
      config.needle_width true color,
   DrawCommand.NeedleLine dial.cx dial.cy
      (q_to_i32 ((dial.cx : ℚ) - ops.cos angle * config.needle_back_length))
      (q_to_i32 ((dial.cy : ℚ) - ops.sin angle * config.needle_back_length))
      config.needle_width false color,
   DrawCommand.Circle dial.cx dial.cy config.dot_radius color]

/-- One iteration of the tick loop of `build_complication_dial_commands`. -/
def complication_tick_group (ops : FloatOps) (dial : Dial) (range : ℚ × ℚ) (color : Color8)
    (config : InstrumentConfig) (i : ℕ) : List DrawCommand :=
  let t : ℚ := (i : ℚ) / ((config.secondary_ticks_count : ℚ) - 1)
  let angle := dial.start_angle + dial.arc_span * t
  [DrawCommand.Tick dial.cx dial.cy dial.r angle config.secondary_tick_length
      config.secondary_major_tick_thickness color]
  ++ (if i < config.secondary_ticks_count - 1 then
        (List.range config.secondary_minor_ticks_per_interval).map (fun j =>
          DrawCommand.Tick dial.cx dial.cy dial.r
            (dial.start_angle + dial.arc_span *
              (t + (((j + 1 : ℕ) : ℚ) /
                ((config.secondary_minor_ticks_per_interval : ℚ) *
                  ((config.secondary_ticks_count : ℚ) - 1)))))
            config.secondary_minor_tick_length config.secondary_minor_tick_thickness color)
      else [])
  ++ [DrawCommand.Text
        (q_to_i32 ((dial.cx : ℚ) + ops.cos angle *
          ((dial.r : ℚ) - (config.secondary_tick_length : ℚ) -
            config.secondary_dial_ticks_to_numbers_distance)))
        (q_to_i32 ((dial.cy : ℚ) + ops.sin angle *
          ((dial.r : ℚ) - (config.secondary_tick_length : ℚ) -
            config.secondary_dial_ticks_to_numbers_distance)))
        (LabelText.num (q_round_to_i64 (range.1 + t * (range.2 - range.1))))
        config.secondary_dial_numbers_font_size color]

/-- Model of `build_complication_dial_commands`: the secondary dial's arc, ticks
and labels. -/
def build_complication_dial_commands (ops : FloatOps) (dial : Dial) (range : ℚ × ℚ)
    (color : Color8) (config : InstrumentConfig) : List DrawCommand :=
  [DrawCommand.Arc dial.cx dial.cy dial.r dial.thickness dial.start_angle dial.arc_span color]
  ++ ((List.range config.secondary_ticks_count).map
        (complication_tick_group ops dial range color config)).flatten

/-- Model of `build_complication_needle_commands`. -/
def build_complication_needle_commands (ops : FloatOps) (needle : Needle) (dial : Dial)
    (color : Color8) (config : InstrumentConfig) : List DrawCommand :=
  let angle := dial.start_angle + dial.arc_span * needle.pos
  let needle_length := (dial.r : ℚ) * config.secondary_needle_length_factor
  [DrawCommand.NeedleLine dial.cx dial.cy
      (q_to_i32 ((dial.cx : ℚ) + ops.cos angle * needle_length))
      (q_to_i32 ((dial.cy : ℚ) + ops.sin angle * needle_length))
      config.secondary_needle_width true color,
   DrawCommand.NeedleLine dial.cx dial.cy
      (q_to_i32 ((dial.cx : ℚ) - ops.cos angle * config.secondary_needle_back_length))
      (q_to_i32 ((dial.cy : ℚ) - ops.sin angle * config.secondary_needle_back_length))
      config.secondary_needle_width false color,
   DrawCommand.Circle dial.cx dial.cy config.secondary_dial_dot_radius color]

/-- Model of `build_readout_box_commands`: the four frame edges around the readout. -/
def build_readout_box_commands (label_x label_y frac_x frac_y : ℤ) (value_int : ℤ)
    (color : Color8) (config : InstrumentConfig) : List DrawCommand :=
  let box_padding := config.readout_box_padding
  let font_size := q_to_i32 (config.readout_big_font_size / 11)
  let box_left := label_x - box_padding - font_size * ((toString value_int).length : ℤ)
  let box_top := label_y - box_padding
  let box_right := frac_x + box_padding + 5
  let box_bottom := frac_y + box_padding
  [DrawCommand.NeedleLine box_left box_top box_right box_top
      config.readout_box_thickness false color,
   DrawCommand.NeedleLine box_left box_bottom box_right box_bottom
      config.readout_box_thickness false color,
   DrawCommand.NeedleLine box_left box_top box_left box_bottom
      config.readout_box_thickness false color,
   DrawCommand.NeedleLine box_right box_top box_right box_bottom
      config.readout_box_thickness false color]

/-- Model of `build_readout_commands`: big integer text, small 3-digit fractional
text, then the surrounding box. -/
def build_readout_commands (ops : FloatOps) (canvas_width canvas_height : ℕ) (value : ℚ)
    (color : Color8) (config : InstrumentConfig) : List DrawCommand :=
  let value_int := max (-(2 ^ 31)) (min ((2 : ℤ) ^ 31 - 1) (rust_trunc value))
  let value_frac : ℕ :=
    min ((rust_round ((value - (rust_trunc value : ℤ)) * 1000)).toNat) 999
  let label_x := q_to_i32 ((canvas_width : ℚ) * config.readout_x_factor)
  let label_y := q_to_i32 ((canvas_height : ℚ) * config.readout_y_factor)
  let frac_x := label_x + Int.tdiv (ops.text_width value_int config.readout_big_font_size) 2 + 28
  let frac_y := label_y + 2
  [DrawCommand.Text label_x label_y (LabelText.int_part value_int)
      config.readout_big_font_size color,
   DrawCommand.Text frac_x frac_y (LabelText.frac_part value_frac)
      config.readout_small_font_size color]
  ++ build_readout_box_commands label_x label_y frac_x frac_y value_int color config

/-- Model of `build_warning_commands`: the red exclamation mark above the dial
center. -/
def build_warning_commands (dial : Dial) (config : InstrumentConfig) : List DrawCommand :=
  [DrawCommand.Text dial.cx (dial.cy - Int.tdiv dial.r 4) LabelText.bang
    config.exclamation_mark_size (255, 0, 0)]

/-- Model of `build_curved_text_commands`. -/
def build_curved_text_commands (dial : Dial) (color : Color8) (config : InstrumentConfig) :
    List DrawCommand :=
  [DrawCommand.CurvedText dial.cx dial.cy ((dial.r : ℚ) + config.curved_text_radius_offset)
    config.curved_text config.curved_text_font_size config.curved_text_arc_span
    config.curved_text_angle color]

/-- The scene command list built by `render_instrument`, in push order. -/
def render_instrument_scene (ops : FloatOps) (state : AppState) (config : InstrumentConfig)
    (width height : ℕ) : List DrawCommand :=
  let dial := Dial.new width height config
  let oor := state.is_out_of_range
  let base_color : Color8 := if oor then (255, 0, 0) else (0, 0, 0)
  [DrawCommand.Clear (255, 255, 255)]
  ++ build_dial_commands ops dial (state.min_value, state.max_value) base_color
       (state.highlight_bounds.map HighlightBounds.get_bounds) config
  ++ build_curved_text_commands dial base_color config
  ++ (match state.needle1 with
      | some needle =>
          build_needle_commands ops needle dial (if oor then (255, 0, 0) else (0, 0, 0)) config
      | none => [])
  ++ (match state.needle2 with
      | some needle =>
          if config.use_secondary_complication then
            build_complication_dial_commands ops (Dial.new_complication width height config)
              (state.min_value, state.max_value) (0, 0, 0) config
            ++ build_complication_needle_commands ops needle
                (Dial.new_complication width height config) (0, 0, 0) config
          else
            build_needle_commands ops needle dial
              (if oor then (255, 0, 0) else (0, 127, 255)) config
      | none => [])
  ++ (match state.current_values.readout with
      | some value => build_readout_commands ops width height value base_color config
      | none => [])
  ++ (if oor then build_warning_commands dial config else [])

/- ============================================================
   Canvas, drawing primitives and the render pass
   ============================================================ -/

/-- The canvas: RGBA byte buffer plus dimensions. -/
structure Canvas where
  frame : List ℕ
  width : ℕ
  height : ℕ
deriving DecidableEq

/-- Model of `Canvas::clear`: every complete 4-byte chunk becomes RGB + `0xFF`. -/
def canvas_clear (c : Canvas) (color : Color8) : Canvas :=
  { c with frame :=
      ((List.range (c.frame.length / 4)).map
        (fun _ => [color.1, color.2.1, color.2.2, 255])).flatten
      ++ c.frame.drop (c.frame.length / 4 * 4) }

/-- Model of `draw_thick_line_aa`: analytic anti-aliased thick segment. -/
def draw_thick_line_aa (ops : FloatOps) (frame : List ℕ) (width : ℕ)
    (x0 y0 x1 y1 : ℤ) (thickness : ℚ) (r g b : ℕ) : List ℕ :=
  let pad := ⌈thickness⌉ + 1
  let dx : ℚ := ((x1 - x0 : ℤ) : ℚ)
  let dy : ℚ := ((y1 - y0 : ℤ) : ℚ)
  let len_sq := dx * dx + dy * dy
  (int_range (min y0 y1 - pad) (max y0 y1 + pad)).foldl (fun fr y =>
    (int_range (min x0 x1 - pad) (max x0 x1 + pad)).foldl (fun fr x =>
      let t := rclamp ((((x - x0 : ℤ) : ℚ) * dx + ((y - y0 : ℤ) : ℚ) * dy) / len_sq) 0 1
      let lx := (x0 : ℚ) + t * dx
      let ly := (y0 : ℚ) + t * dy
      let dist := ops.sqrt ((lx - (x : ℚ)) * (lx - (x : ℚ)) + (ly - (y : ℚ)) * (ly - (y : ℚ)))
      let aa := rclamp (1 - rclamp (dist - thickness / 2) 0 1) 0 1
      if 1/100 < aa then set_pixel fr width (i_to_usize x) (i_to_usize y) r g b aa else fr)
      fr)
    frame

/-- Model of `draw_thick_line_tapered_aa`: as the thick line, but the local
thickness shrinks along the segment (`tapered_local_thickness`). -/
def draw_thick_line_tapered_aa (ops : FloatOps) (frame : List ℕ) (width : ℕ)
    (x0 y0 x1 y1 : ℤ) (thickness : ℚ) (r g b : ℕ) : List ℕ :=
  let pad := ⌈thickness⌉ + 1
  let dx : ℚ := ((x1 - x0 : ℤ) : ℚ)
  let dy : ℚ := ((y1 - y0 : ℤ) : ℚ)
  let len_sq := dx * dx + dy * dy
  (int_range (min y0 y1 - pad) (max y0 y1 + pad)).foldl (fun fr y =>
    (int_range (min x0 x1 - pad) (max x0 x1 + pad)).foldl (fun fr x =>
      let t := rclamp ((((x - x0 : ℤ) : ℚ) * dx + ((y - y0 : ℤ) : ℚ) * dy) / len_sq) 0 1
      let lx := (x0 : ℚ) + t * dx
      let ly := (y0 : ℚ) + t * dy
      let dist := ops.sqrt ((lx - (x : ℚ)) * (lx - (x : ℚ)) + (ly - (y : ℚ)) * (ly - (y : ℚ)))
      let aa := rclamp (1 - rclamp (dist - tapered_local_thickness thickness t / 2) 0 1) 0 1
      if 1/100 < aa then set_pixel fr width (i_to_usize x) (i_to_usize y) r g b aa else fr)
      fr)
    frame

/-- Model of `draw_circle`. -/
def draw_circle (ops : FloatOps) (frame : List ℕ) (width : ℕ) (cx cy radius : ℤ)
    (r g b : ℕ) : List ℕ :=
  (int_range (-radius) radius).foldl (fun fr y =>
    (int_range (-radius) radius).foldl (fun fr x =>
      let dist := ops.sqrt (((x * x + y * y : ℤ) : ℚ))
      let aa : ℚ := if (radius : ℚ) < dist then 1 - min (dist - (radius : ℚ)) 1 else 1
      if dist ≤ (radius : ℚ) + 1 ∧ 0 < aa then
        let px := cx + x
        let py := cy + y
        if 0 ≤ px ∧ 0 ≤ py ∧ i_to_usize px < width ∧
            i_to_usize py < fr.length / (width * 4) then
          set_pixel fr width (i_to_usize px) (i_to_usize py) r g b aa
        else fr
      else fr)
      fr)
    frame

/-- Model of `render_arc_immediate`: the anti-aliased ring arc (full-canvas scan
using the wraparound-aware in-arc test). -/
def render_arc_immediate (ops : FloatOps) (c : Canvas) (cx cy r thickness : ℤ)
    (start_angle arc_span : ℚ) (color : Color8) : Canvas :=
  let s0 := (arc_normalize start_angle arc_span).1
  let e0 := (arc_normalize start_angle arc_span).2
  let new_frame :=
    (List.range c.height).foldl (fun fr (y : ℕ) =>
      (List.range c.width).foldl (fun fr (x : ℕ) =>
        let dx := (x : ℤ) - cx
        let dy := (y : ℤ) - cy
        let dist := ops.sqrt (((dx * dx + dy * dy : ℤ) : ℚ))
        let angle0 := ops.atan2 (dy : ℚ) (dx : ℚ)
        let angle := if angle0 < 0 then angle0 + 2 * pi64 else angle0
        if arc_in_arc_core s0 e0 angle then
          let aa : ℚ :=
            if (r : ℚ) < dist then 1 - min (dist - (r : ℚ)) 1
            else if dist < ((r - thickness : ℤ) : ℚ) then
              1 - min (((r - thickness : ℤ) : ℚ) - dist) 1
            else 1
          if ((r - thickness - 1 : ℤ) : ℚ) ≤ dist ∧ dist ≤ ((r + 1 : ℤ) : ℚ) ∧ 0 < aa then
            set_pixel fr c.width x y color.1 color.2.1 color.2.2 aa
          else fr
        else fr)
        fr)
      c.frame
  { c with frame := new_frame }

/-- Model of `render_highlight_band_immediate`: angular+radial soft band. -/
def render_highlight_band_immediate (ops : FloatOps) (c : Canvas) (cx cy r : ℤ)
    (start_angle end_angle inner_radius outer_radius : ℚ)
    (config : InstrumentConfig) : Canvas :=
  let band_inner_radius := max ((r : ℚ) - inner_radius) 0
  let band_outer_radius := max ((r : ℚ) - outer_radius) 0
  let soft := config.highlight_band_edge_softness
  let new_frame :=
    (List.range c.height).foldl (fun fr (y : ℕ) =>
      (List.range c.width).foldl (fun fr (x : ℕ) =>
        let dx := (x : ℤ) - cx
        let dy := (y : ℤ) - cy
        let dist := ops.sqrt (((dx * dx + dy * dy : ℤ) : ℚ))
        let angle0 := ops.atan2 (dy : ℚ) (dx : ℚ)
        let angle := if angle0 < 0 then angle0 + 2 * pi64 else angle0
        let angular_alpha : ℚ :=
          if start_angle ≤ end_angle then
            if angle < start_angle then max (1 - (min (start_angle - angle) soft) / soft) 0
            else if end_angle < angle then max (1 - (min (angle - end_angle) soft) / soft) 0
            else 1
          else
            if angle < end_angle then 1 - max ((min (end_angle - angle) soft) / soft) 0
            else if start_angle < angle then 1 - max ((min (angle - start_angle) soft) / soft) 0
            else
              let dist_to_start :=
                if angle < start_angle then start_angle - angle
                else 2 * pi64 - angle + start_angle
              let dist_to_end :=
                if end_angle < angle then angle - end_angle
                else end_angle + 2 * pi64 - angle
              max (1 - (min (min dist_to_start dist_to_end) soft) / soft) 0
        let radial_alpha : ℚ :=
          if dist < band_inner_radius - 1 then 0
          else if dist < band_inner_radius + 1 then
            rclamp ((dist - (band_inner_radius - 1)) / 2) 0 1
          else if dist ≤ band_outer_radius - 1 then 1
          else if dist ≤ band_outer_radius + 1 then
            1 - rclamp ((dist - (band_outer_radius - 1)) / 2) 0 1
          else 0
        let final_alpha :=
          rclamp (angular_alpha * radial_alpha * config.highlight_band_alpha) 0 1
        if 1/100 < final_alpha then
          set_pixel fr c.width x y config.highlight_band_color.1
            config.highlight_band_color.2.1 config.highlight_band_color.2.2 final_alpha
        else fr)
        fr)
      c.frame
  { c with frame := new_frame }

/-- External font rasterization collaborator: the bodies of `draw_text`
and `draw_curved_text` lay out glyphs through `rusttype`. -/
structure TextRenderer where
  draw_text : Canvas → ℤ → ℤ → LabelText → ℚ → Color8 → Canvas
  draw_curved_text : Canvas → ℤ → ℤ → ℚ → String → ℚ → ℚ → ℚ → Color8 → Canvas

/-- The dispatch arm of `Scene::render` for one command. -/
def render_command (ops : FloatOps) (tr : TextRenderer) (config : InstrumentConfig)
    (c : Canvas) : DrawCommand → Canvas
  | DrawCommand.Clear color => canvas_clear c color
  | DrawCommand.Arc cx cy r thickness start_angle arc_span color =>
      render_arc_immediate ops c cx cy r thickness start_angle arc_span color
  | DrawCommand.HighlightBand cx cy r start_angle end_angle inner_radius outer_radius =>
      render_highlight_band_immediate ops c cx cy r start_angle end_angle inner_radius
        outer_radius config
  | DrawCommand.Tick cx cy r angle length thickness color =>
      let new_frame :=
        draw_thick_line_aa ops c.frame c.width
          (q_round_to_i32 ((cx : ℚ) + ops.cos angle * ((r : ℚ) - (length : ℚ))))
          (q_round_to_i32 ((cy : ℚ) + ops.sin angle * ((r : ℚ) - (length : ℚ))))
          (q_round_to_i32 ((cx : ℚ) + ops.cos angle * ((r : ℚ) - 1)))
          (q_round_to_i32 ((cy : ℚ) + ops.sin angle * ((r : ℚ) - 1)))
          thickness color.1 color.2.1 color.2.2
      { c with frame := new_frame }
  | DrawCommand.Text x y text font_size color => tr.draw_text c x y text font_size color
  | DrawCommand.CurvedText cx cy radius text font_size arc_span start_angle color =>
      tr.draw_curved_text c cx cy radius text font_size arc_span start_angle color
  | DrawCommand.NeedleLine x0 y0 x1 y1 thickness tapered color =>
      if tapered then
        let new_frame :=
          draw_thick_line_tapered_aa ops c.frame c.width x0 y0 x1 y1 thickness
            color.1 color.2.1 color.2.2
        { c with frame := new_frame }
      else
        let new_frame :=
          draw_thick_line_aa ops c.frame c.width x0 y0 x1 y1 thickness
            color.1 color.2.1 color.2.2
        { c with frame := new_frame }
  | DrawCommand.Circle cx cy radius color =>
      let new_frame :=
        draw_circle ops c.frame c.width cx cy radius color.1 color.2.1 color.2.2
      { c with frame := new_frame }

/-- Model of `Scene::render`: walk the command list once, in push order. -/
def scene_render (ops : FloatOps) (tr : TextRenderer) (config : InstrumentConfig)
    (commands : List DrawCommand) (c : Canvas) : Canvas :=
  commands.foldl (render_command ops tr config) c

/-- Model of `render_instrument`: build the frame's scene, then render it onto the
canvas. -/
def render_instrument (ops : FloatOps) (tr : TextRenderer) (c : Canvas) (state : AppState)
    (config : InstrumentConfig) : Canvas :=
  scene_render ops tr config (render_instrument_scene ops state config c.width c.height) c

/-- The out-of-range alert glyph: a red exclamation mark text command. -/
def is_warning_glyph (cmd : DrawCommand) : Bool :=
  match cmd with
  | DrawCommand.Text _ _ LabelText.bang _ color => decide (color = (255, 0, 0))
  | _ => false

/-- Whether the scene contains the red alert glyph. -/
def has_warning_glyph (commands : List DrawCommand) : Bool :=
  commands.any is_warning_glyph

/- ============================================================
   Drain/scene lemmas
   ============================================================ -/

theorem normalized_pos_mem (v mn mx : ℚ) :
    0 ≤ normalized_pos v mn mx ∧ normalized_pos v mn mx ≤ 1 :=
  rclamp_mem _ 0 1 (by norm_num)

theorem normalized_pos_one (v mn mx : ℚ) (h : mn < mx) (hv : mx < v) :
    normalized_pos v mn mx = 1 := by
  have hd : (0:ℚ) < mx - mn := by linarith
  have hgt : 1 < (v - mn) / (mx - mn) := (one_lt_div hd).mpr (by linarith)
  unfold normalized_pos rclamp
  rw [if_neg (not_lt.mpr (by linarith)), if_pos hgt]

theorem normalized_pos_zero (v mn mx : ℚ) (h : mn < mx) (hv : v < mn) :
    normalized_pos v mn mx = 0 := by
  have hd : (0:ℚ) < mx - mn := by linarith
  have hneg : (v - mn) / (mx - mn) < 0 := div_neg_of_neg_of_pos (by linarith) hd
  unfold normalized_pos rclamp
  rw [if_pos hneg]

theorem needle_update_position_target (nd : Needle) :
    nd.update_position.target_pos = nd.target_pos := rfl

theorem apply_message_fields (st : AppState) (rng : Rng) (m : ValueMap) :
    (st.apply_message rng m).current_values = m ∧
    (st.apply_message rng m).min_value = st.min_value ∧
    (st.apply_message rng m).max_value = st.max_value ∧
    (∀ v, m.needle1 = some v → ∃ nd : Needle, (st.apply_message rng m).needle1 = some nd ∧
      nd.target_pos = rclamp (normalized_pos v st.min_value st.max_value) 0 1) ∧
    (∀ v, m.needle2 = some v → ∃ nd : Needle, (st.apply_message rng m).needle2 = some nd ∧
      nd.target_pos = rclamp (normalized_pos v st.min_value st.max_value) 0 1) := by
  refine ⟨rfl, rfl, rfl, ?_, ?_⟩
  · intro v hv
    refine ⟨(st.needle1.getD (Needle.new rng.phase1)).set_target_pos
      (normalized_pos v st.min_value st.max_value), ?_, rfl⟩
    simp [AppState.apply_message, hv]
  · intro v hv
    refine ⟨(st.needle2.getD (Needle.new rng.phase2)).set_target_pos
      (normalized_pos v st.min_value st.max_value), ?_, rfl⟩
    simp [AppState.apply_message, hv]

theorem foldl_apply_message_minmax (rng : Rng) (msgs : List ValueMap) (st : AppState) :
    (msgs.foldl (fun s mm => s.apply_message rng mm) st).min_value = st.min_value ∧
    (msgs.foldl (fun s mm => s.apply_message rng mm) st).max_value = st.max_value := by
  induction msgs generalizing st with
  | nil => exact ⟨rfl, rfl⟩
  | cons a tl ih => exact ih (st.apply_message rng a)

theorem foldl_apply_message_last (rng : Rng) (msgs : List ValueMap) (st : AppState)
    (m : ValueMap) (hlast : msgs.getLast? = some m) :
    msgs.foldl (fun s mm => s.apply_message rng mm) st =
      (msgs.dropLast.foldl (fun s mm => s.apply_message rng mm) st).apply_message rng m := by
  induction msgs generalizing st with
  | nil => simp at hlast
  | cons a tl ih =>
    cases tl with
    | nil =>
      simp only [List.getLast?_singleton, Option.some.injEq] at hlast
      subst hlast
      simp
    | cons b tl2 =>
      have h' := hlast
      rw [List.getLast?_cons_cons] at h'
      exact ih (st.apply_message rng a) h'

theorem step_animations_needle (st : AppState) :
    (∀ nd, st.needle1 = some nd → st.step_animations.needle1 = some nd.update_position) ∧
    (∀ nd, st.needle2 = some nd → st.step_animations.needle2 = some nd.update_position) := by
  unfold AppState.step_animations
  constructor <;> intro nd h <;> simp [h]

theorem valuemap_not_empty_of_needle (m : ValueMap) (v : ℚ)
    (h : m.needle1 = some v ∨ m.needle2 = some v) : m.isEmpty = false := by
  unfold ValueMap.isEmpty
  rcases h with h | h <;> simp [h]

theorem apply_idle_of_not_empty (st : AppState) (rng : Rng)
    (h : st.current_values.isEmpty = false) : st.apply_idle rng = st := by
  unfold AppState.apply_idle
  simp [h]

theorem update_drained_shape (rng : Rng) (st0 : AppState) (msgs : List ValueMap) (m : ValueMap)
    (hlast : msgs.getLast? = some m) :
    (st0.update msgs rng).current_values = m ∧
    (st0.update msgs rng).min_value = st0.min_value ∧
    (st0.update msgs rng).max_value = st0.max_value ∧
    (∀ v, m.needle1 = some v → ∃ nd : Needle, (st0.update msgs rng).needle1 = some nd ∧
      nd.target_pos = rclamp (normalized_pos v st0.min_value st0.max_value) 0 1) ∧
    (∀ v, m.needle2 = some v → ∃ nd : Needle, (st0.update msgs rng).needle2 = some nd ∧
      nd.target_pos = rclamp (normalized_pos v st0.min_value st0.max_value) 0 1) := by
  have hfold := foldl_apply_message_last rng msgs st0 m hlast
  have hpremm := foldl_apply_message_minmax rng msgs.dropLast st0
  obtain ⟨hc, hmn, hmx, h1, h2⟩ :=
    apply_message_fields (msgs.dropLast.foldl (fun s mm => s.apply_message rng mm) st0) rng m
  have hu : st0.update msgs rng =
      (((msgs.dropLast.foldl (fun s mm => s.apply_message rng mm) st0).apply_message
        rng m).step_animations).apply_idle rng := by
    unfold AppState.update
    rw [hfold]
  set stF := (msgs.dropLast.foldl (fun s mm => s.apply_message rng mm) st0).apply_message rng m
    with hSF
  have hstep := step_animations_bounds_inv stF
  have hidle := apply_idle_bounds_inv stF.step_animations rng
  have hsn := step_animations_needle stF
  refine ⟨?_, ?_, ?_, ?_, ?_⟩
  · rw [hu, hidle.2.2.1, hstep.2.2.1, hc]
  · rw [hu, hidle.2.2.2.1, hstep.2.2.2.1, hmn, hpremm.1]
  · rw [hu, hidle.2.2.2.2, hstep.2.2.2.2, hmx, hpremm.2]
  · intro v hv
    obtain ⟨nd, hnd, htg⟩ := h1 v hv
    have hne : stF.step_animations.current_values.isEmpty = false := by
      rw [hstep.2.2.1, hc]
      exact valuemap_not_empty_of_needle m v (Or.inl hv)
    refine ⟨nd.update_position, ?_, ?_⟩
    · rw [hu, apply_idle_of_not_empty _ rng hne]
      exact hsn.1 nd hnd
    · rw [needle_update_position_target, htg, hpremm.1, hpremm.2]
  · intro v hv
    obtain ⟨nd, hnd, htg⟩ := h2 v hv
    have hne : stF.step_animations.current_values.isEmpty = false := by
      rw [hstep.2.2.1, hc]
      exact valuemap_not_empty_of_needle m v (Or.inr hv)
    refine ⟨nd.update_position, ?_, ?_⟩
    · rw [hu, apply_idle_of_not_empty _ rng hne]
      exact hsn.2 nd hnd
    · rw [needle_update_position_target, htg, hpremm.1, hpremm.2]

theorem is_out_of_range_true_of (st : AppState) (v : ℚ)
    (h : st.current_values.needle1 = some v ∨ st.current_values.needle2 = some v)
    (hout : v < st.min_value ∨ st.max_value < v) : st.is_out_of_range = true := by
  unfold AppState.is_out_of_range
  rcases h with h | h <;> rw [h] <;> rcases hout with ho | ho <;> simp [ho]

theorem is_out_of_range_false_iff (st : AppState) :
    st.is_out_of_range = false ↔
      (∀ v, st.current_values.needle1 = some v → st.min_value ≤ v ∧ v ≤ st.max_value) ∧
      (∀ v, st.current_values.needle2 = some v → st.min_value ≤ v ∧ v ≤ st.max_value) := by
  unfold AppState.is_out_of_range
  cases h1 : st.current_values.needle1 <;> cases h2 : st.current_values.needle2 <;>
    simp [not_lt]

theorem tick_group_no_warning (ops : FloatOps) (dial : Dial) (range : ℚ × ℚ) (color : Color8)
    (config : InstrumentConfig) (i : ℕ) (cmd : DrawCommand)
    (h : cmd ∈ dial_tick_group ops dial range color config i) :
    is_warning_glyph cmd = false := by
  unfold dial_tick_group at h
  rcases List.mem_append.mp h with h' | h'
  · rcases List.mem_append.mp h' with h'' | h''
    · rw [List.mem_singleton.mp h'']; rfl
    · by_cases hc : i < config.ticks_count - 1
      · rw [if_pos hc] at h''
        obtain ⟨j, _, hj⟩ := List.mem_map.mp h''
        rw [← hj]; rfl
      · rw [if_neg hc] at h''
        simp at h''
  · rw [List.mem_singleton.mp h']; rfl

theorem complication_tick_group_no_warning (ops : FloatOps) (dial : Dial) (range : ℚ × ℚ)
    (color : Color8) (config : InstrumentConfig) (i : ℕ) (cmd : DrawCommand)
    (h : cmd ∈ complication_tick_group ops dial range color config i) :
    is_warning_glyph cmd = false := by
  unfold complication_tick_group at h
  rcases List.mem_append.mp h with h' | h'
  · rcases List.mem_append.mp h' with h'' | h''
    · rw [List.mem_singleton.mp h'']; rfl
    · by_cases hc : i < config.secondary_ticks_count - 1
      · rw [if_pos hc] at h''
        obtain ⟨j, _, hj⟩ := List.mem_map.mp h''
        rw [← hj]; rfl
      · rw [if_neg hc] at h''
        simp at h''
  · rw [List.mem_singleton.mp h']; rfl

theorem build_dial_no_warning (ops : FloatOps) (dial : Dial) (range : ℚ × ℚ) (color : Color8)
    (highlight_range : Option (ℚ × ℚ)) (config : InstrumentConfig) (cmd : DrawCommand)
    (h : cmd ∈ build_dial_commands ops dial range color highlight_range config) :
    is_warning_glyph cmd = false := by
  unfold build_dial_commands at h
  rcases List.mem_append.mp h with h' | h'
  · rcases List.mem_append.mp h' with h'' | h''
    · unfold build_dial_highlight_commands at h''
      cases highlight_range with
      | some hl =>
        rw [List.mem_singleton.mp h'']; rfl
      | none => simp at h''
    · rw [List.mem_singleton.mp h'']; rfl
  · obtain ⟨l, hl, hcmd⟩ := List.mem_flatten.mp h'
    obtain ⟨i, _, hi⟩ := List.mem_map.mp hl
    rw [← hi] at hcmd
    exact tick_group_no_warning ops dial range color config i cmd hcmd

theorem build_needle_no_warning (ops : FloatOps) (needle : Needle) (dial : Dial)
    (color : Color8) (config : InstrumentConfig) (cmd : DrawCommand)
    (h : cmd ∈ build_needle_commands ops needle dial color config) :
    is_warning_glyph cmd = false := by
  unfold build_needle_commands at h
  simp only [List.mem_cons, List.not_mem_nil, or_false] at h
  rcases h with rfl | rfl | rfl <;> rfl

theorem build_complication_dial_no_warning (ops : FloatOps) (dial : Dial) (range : ℚ × ℚ)
    (color : Color8) (config : InstrumentConfig) (cmd : DrawCommand)
    (h : cmd ∈ build_complication_dial_commands ops dial range color config) :
    is_warning_glyph cmd = false := by
  unfold build_complication_dial_commands at h
  rcases List.mem_append.mp h with h' | h'
  · rw [List.mem_singleton.mp h']; rfl
  · obtain ⟨l, hl, hcmd⟩ := List.mem_flatten.mp h'
    obtain ⟨i, _, hi⟩ := List.mem_map.mp hl
    rw [← hi] at hcmd
    exact complication_tick_group_no_warning ops dial range color config i cmd hcmd

theorem build_complication_needle_no_warning (ops : FloatOps) (needle : Needle) (dial : Dial)
    (color : Color8) (config : InstrumentConfig) (cmd : DrawCommand)
    (h : cmd ∈ build_complication_needle_commands ops needle dial color config) :
    is_warning_glyph cmd = false := by
  unfold build_complication_needle_commands at h
  simp only [List.mem_cons, List.not_mem_nil, or_false] at h
  rcases h with rfl | rfl | rfl <;> rfl

theorem build_readout_no_warning (ops : FloatOps) (canvas_width canvas_height : ℕ) (value : ℚ)
    (color : Color8) (config : InstrumentConfig) (cmd : DrawCommand)
    (h : cmd ∈ build_readout_commands ops canvas_width canvas_height value color config) :
    is_warning_glyph cmd = false := by
  unfold build_readout_commands at h
  rcases List.mem_append.mp h with h' | h'
  · simp only [List.mem_cons, List.not_mem_nil, or_false] at h'
    rcases h' with rfl | rfl <;> rfl
  · unfold build_readout_box_commands at h'
    simp only [List.mem_cons, List.not_mem_nil, or_false] at h'
    rcases h' with rfl | rfl | rfl | rfl <;> rfl

theorem build_curved_no_warning (dial : Dial) (color : Color8) (config : InstrumentConfig)
    (cmd : DrawCommand) (h : cmd ∈ build_curved_text_commands dial color config) :
    is_warning_glyph cmd = false := by
  unfold build_curved_text_commands at h
  rw [List.mem_singleton.mp h]; rfl

theorem scene_no_warning_of_in_range (ops : FloatOps) (st : AppState)
    (config : InstrumentConfig) (width height : ℕ) (h : st.is_out_of_range = false) :
    has_warning_glyph (render_instrument_scene ops st config width height) = false := by
  unfold has_warning_glyph
  rw [List.any_eq_false]
  intro cmd hmem
  simp only [render_instrument_scene, h, Bool.false_eq_true, if_false, List.append_nil,
    List.append_assoc, List.mem_append, List.mem_singleton] at hmem
  rw [Bool.not_eq_true]
  rcases hmem with rfl | h2 | h3 | h4 | h5 | h6
  · rfl
  · exact build_dial_no_warning _ _ _ _ _ _ _ h2
  · exact build_curved_no_warning _ _ _ _ h3
  · cases hn1 : st.needle1 with
    | some nd =>
      rw [hn1] at h4
      exact build_needle_no_warning _ _ _ _ _ _ h4
    | none => rw [hn1] at h4; simp at h4
  · cases hn2 : st.needle2 with
    | some nd =>
      rw [hn2] at h5
      cases hc : config.use_secondary_complication with
      | true =>
        simp only [hc, eq_self_iff_true, if_true, List.mem_append] at h5
        rcases h5 with h5' | h5'
        · exact build_complication_dial_no_warning _ _ _ _ _ _ h5'
        · exact build_complication_needle_no_warning _ _ _ _ _ _ h5'
      | false =>
        simp only [hc, Bool.false_eq_true, if_false] at h5
        exact build_needle_no_warning _ _ _ _ _ _ h5
    | none => rw [hn2] at h5; simp at h5
  · cases hro : st.current_values.readout with
    | some v =>
      rw [hro] at h6
      exact build_readout_no_warning _ _ _ _ _ _ _ h6
    | none => rw [hro] at h6; simp at h6

theorem scene_warning_of_out_of_range (ops : FloatOps) (st : AppState)
    (config : InstrumentConfig) (width height : ℕ) (h : st.is_out_of_range = true) :
    has_warning_glyph (render_instrument_scene ops st config width height) = true := by
  unfold has_warning_glyph
  rw [List.any_eq_true]
  refine ⟨DrawCommand.Text (Dial.new width height config).cx
    ((Dial.new width height config).cy - Int.tdiv (Dial.new width height config).r 4)
    LabelText.bang config.exclamation_mark_size (255, 0, 0), ?_, ?_⟩
  · simp only [render_instrument_scene, h, if_true, build_warning_commands,
      List.append_assoc, List.mem_append, List.mem_singleton]
    tauto
  · simp [is_warning_glyph]

/-- C2. After a drain whose last message binds `needle1` (resp. `needle2`)
to an un-normalized value strictly outside `[min_value, max_value]`,
`AppState::is_out_of_range` is true, that needle's `target_pos` is the
clamped normalized position (exactly 1 for values above the range, exactly
0 below it), and the scene built by `render_instrument` contains a red
`!` text command; when every bound needle value of the last message lies
inside the range, `is_out_of_range` is false and no alert glyph command is
in the scene. -/
theorem out_of_range_detection (ops : FloatOps) (rng : Rng) (st0 : AppState)
    (msgs : List ValueMap) (m : ValueMap) (config : InstrumentConfig) (width height : ℕ)
    (hlast : msgs.getLast? = some m) (hrange : st0.min_value < st0.max_value) :
    (∀ v, m.needle1 = some v → (v < st0.min_value ∨ st0.max_value < v) →
      (st0.update msgs rng).is_out_of_range = true ∧
      (∃ nd : Needle, (st0.update msgs rng).needle1 = some nd ∧
        nd.target_pos = normalized_pos v st0.min_value st0.max_value ∧
        (st0.max_value < v → nd.target_pos = 1) ∧
        (v < st0.min_value → nd.target_pos = 0)) ∧
      has_warning_glyph
        (render_instrument_scene ops (st0.update msgs rng) config width height) = true) ∧
    (∀ v, m.needle2 = some v → (v < st0.min_value ∨ st0.max_value < v) →
      (st0.update msgs rng).is_out_of_range = true ∧
      (∃ nd : Needle, (st0.update msgs rng).needle2 = some nd ∧
        nd.target_pos = normalized_pos v st0.min_value st0.max_value ∧
        (st0.max_value < v → nd.target_pos = 1) ∧
        (v < st0.min_value → nd.target_pos = 0)) ∧
      has_warning_glyph
        (render_instrument_scene ops (st0.update msgs rng) config width height) = true) ∧
    ((∀ v, m.needle1 = some v → st0.min_value ≤ v ∧ v ≤ st0.max_value) →
     (∀ v, m.needle2 = some v → st0.min_value ≤ v ∧ v ≤ st0.max_value) →
      (st0.update msgs rng).is_out_of_range = false ∧
      has_warning_glyph
        (render_instrument_scene ops (st0.update msgs rng) config width height) = false) := by
  obtain ⟨hcur, hmn, hmx, hn1, hn2⟩ := update_drained_shape rng st0 msgs m hlast
  refine ⟨?_, ?_, ?_⟩
  · intro v hv hout
    have hoor : (st0.update msgs rng).is_out_of_range = true := by
      apply is_out_of_range_true_of _ v
      · left; rw [hcur]; exact hv
      · rw [hmn, hmx]; exact hout
    refine ⟨hoor, ?_, scene_warning_of_out_of_range _ _ _ _ _ hoor⟩
    obtain ⟨nd, hnd, htg⟩ := hn1 v hv
    have hmem := normalized_pos_mem v st0.min_value st0.max_value
    have htg' : nd.target_pos = normalized_pos v st0.min_value st0.max_value := by
      rw [htg]; exact rclamp_of_le_of_le _ _ _ hmem.1 hmem.2
    refine ⟨nd, hnd, htg', ?_, ?_⟩
    · intro hgt
      rw [htg', normalized_pos_one v _ _ hrange hgt]
    · intro hlt
      rw [htg', normalized_pos_zero v _ _ hrange hlt]
  · intro v hv hout
    have hoor : (st0.update msgs rng).is_out_of_range = true := by
      apply is_out_of_range_true_of _ v
      · right; rw [hcur]; exact hv
      · rw [hmn, hmx]; exact hout
    refine ⟨hoor, ?_, scene_warning_of_out_of_range _ _ _ _ _ hoor⟩
    obtain ⟨nd, hnd, htg⟩ := hn2 v hv
    have hmem := normalized_pos_mem v st0.min_value st0.max_value
    have htg' : nd.target_pos = normalized_pos v st0.min_value st0.max_value := by
      rw [htg]; exact rclamp_of_le_of_le _ _ _ hmem.1 hmem.2
    refine ⟨nd, hnd, htg', ?_, ?_⟩
    · intro hgt
      rw [htg', normalized_pos_one v _ _ hrange hgt]
    · intro hlt
      rw [htg', normalized_pos_zero v _ _ hrange hlt]
  · intro hin1 hin2
    have hoor : (st0.update msgs rng).is_out_of_range = false := by
      rw [is_out_of_range_false_iff]
      constructor <;> intro v hv
      · rw [hcur] at hv
        rw [hmn, hmx]
        exact hin1 v hv
      · rw [hcur] at hv
        rw [hmn, hmx]
        exact hin2 v hv
    exact ⟨hoor, scene_no_warning_of_in_range _ _ _ _ _ hoor⟩

/- Concrete collaborator instances and inputs for the witnesses below. -/

/-- A trivial concrete instance of the external float intrinsics. -/
def ops0 : FloatOps :=
  { cos := fun _ => 0, sin := fun _ => 0, atan2 := fun _ _ => 0, sqrt := fun _ => 0,
    text_width := fun _ _ => 0 }

/-- A trivial concrete instance of the font collaborator. -/
def tr0 : TextRenderer :=
  { draw_text := fun c _ _ _ _ _ => c, draw_curved_text := fun c _ _ _ _ _ _ _ _ => c }

/-- A concrete update message binding `needle1` (and the readout) to 150. -/
def msg150 : ValueMap := { needle1 := some 150, readout := some 150 }

theorem out_of_range_detection_witness :
    ((AppState.new 0 100).update [msg150] {}).is_out_of_range = true ∧
    has_warning_glyph (render_instrument_scene ops0
      ((AppState.new 0 100).update [msg150] {}) {} 100 100) = true := by
  have h := (out_of_range_detection ops0 {} (AppState.new 0 100) [msg150] msg150 {} 100 100
    rfl (by norm_num [AppState.new])).1 150 rfl (Or.inr (by norm_num [AppState.new]))
  exact ⟨h.1, h.2.2⟩

/-- C9. `Scene::render` walks the command list once, in push order (empty
scene is a no-op; appending a command renders it last on the canvas
produced by the rest), dispatching every variant to its drawing primitive;
and the scene built by `render_instrument` (single-needle, out-of-range,
with highlight bounds and readout) is exactly: clear, highlight band, dial
arc, the tick/label groups, curved text, the needle's two lines and hub
dot, the readout commands, and the warning glyph last. -/
theorem scene_order_spec (ops : FloatOps) (tr : TextRenderer) (config : InstrumentConfig)
    (st : AppState) (width height : ℕ) (nd : Needle) (hb : HighlightBounds) (rv : ℚ)
    (h1 : st.needle1 = some nd) (h2 : st.needle2 = none)
    (h3 : st.highlight_bounds = some hb) (h4 : st.current_values.readout = some rv)
    (h5 : st.is_out_of_range = true) :
    (render_instrument_scene ops st config width height =
      [DrawCommand.Clear (255, 255, 255)]
      ++ build_dial_highlight_commands (Dial.new width height config)
           (st.min_value, st.max_value) (some hb.get_bounds) config
      ++ [DrawCommand.Arc (Dial.new width height config).cx (Dial.new width height config).cy
            (Dial.new width height config).r (Dial.new width height config).thickness
            (Dial.new width height config).start_angle (Dial.new width height config).arc_span
            (255, 0, 0)]
      ++ ((List.range config.ticks_count).map
            (dial_tick_group ops (Dial.new width height config) (st.min_value, st.max_value)
              (255, 0, 0) config)).flatten
      ++ build_curved_text_commands (Dial.new width height config) (255, 0, 0) config
      ++ build_needle_commands ops nd (Dial.new width height config) (255, 0, 0) config
      ++ build_readout_commands ops width height rv (255, 0, 0) config
      ++ build_warning_commands (Dial.new width height config) config) ∧
    (∀ cmd ∈ ((List.range config.ticks_count).map
        (dial_tick_group ops (Dial.new width height config) (st.min_value, st.max_value)
          (255, 0, 0) config)).flatten,
      (∃ cx cy r angle length thickness color,
        cmd = DrawCommand.Tick cx cy r angle length thickness color) ∨
      (∃ x y z fs color, cmd = DrawCommand.Text x y (LabelText.num z) fs color)) ∧
    (∀ canvas : Canvas, scene_render ops tr config [] canvas = canvas) ∧
    (∀ (commands : List DrawCommand) (cmd : DrawCommand) (canvas : Canvas),
      scene_render ops tr config (commands ++ [cmd]) canvas =
        render_command ops tr config (scene_render ops tr config commands canvas) cmd) ∧
    (∀ (canvas : Canvas) (color : Color8),
      render_command ops tr config canvas (DrawCommand.Clear color) =
        canvas_clear canvas color) ∧
    (∀ (canvas : Canvas) (cx cy r th : ℤ) (sa sp : ℚ) (color : Color8),
      render_command ops tr config canvas (DrawCommand.Arc cx cy r th sa sp color) =
        render_arc_immediate ops canvas cx cy r th sa sp color) ∧
    (∀ (canvas : Canvas) (cx cy r : ℤ) (sa ea ir orad : ℚ),
      render_command ops tr config canvas (DrawCommand.HighlightBand cx cy r sa ea ir orad) =
        render_highlight_band_immediate ops canvas cx cy r sa ea ir orad config) ∧
    (∀ (canvas : Canvas) (x y : ℤ) (text : LabelText) (fs : ℚ) (color : Color8),
      render_command ops tr config canvas (DrawCommand.Text x y text fs color) =
        tr.draw_text canvas x y text fs color) ∧
    (∀ (canvas : Canvas) (cx cy : ℤ) (radius : ℚ) (text : String) (fs sp sa : ℚ)
        (color : Color8),
      render_command ops tr config canvas
          (DrawCommand.CurvedText cx cy radius text fs sp sa color) =
        tr.draw_curved_text canvas cx cy radius text fs sp sa color) ∧
    (∀ (canvas : Canvas) (x0 y0 x1 y1 : ℤ) (th : ℚ) (color : Color8),
      render_command ops tr config canvas (DrawCommand.NeedleLine x0 y0 x1 y1 th true color) =
        { canvas with frame := (draw_thick_line_tapered_aa ops canvas.frame canvas.width
            x0 y0 x1 y1 th color.1 color.2.1 color.2.2) }) ∧
    (∀ (canvas : Canvas) (x0 y0 x1 y1 : ℤ) (th : ℚ) (color : Color8),
      render_command ops tr config canvas (DrawCommand.NeedleLine x0 y0 x1 y1 th false color) =
        { canvas with frame := (draw_thick_line_aa ops canvas.frame canvas.width
            x0 y0 x1 y1 th color.1 color.2.1 color.2.2) }) ∧
    (∀ (canvas : Canvas) (cx cy radius : ℤ) (color : Color8),
      render_command ops tr config canvas (DrawCommand.Circle cx cy radius color) =
        { canvas with frame := (draw_circle ops canvas.frame canvas.width cx cy radius
            color.1 color.2.1 color.2.2) }) := by
  refine ⟨?_, ?_, fun canvas => rfl, ?_, fun canvas color => rfl,
    fun canvas cx cy r th sa sp color => rfl, fun canvas cx cy r sa ea ir orad => rfl,
    fun canvas x y text fs color => rfl, fun canvas cx cy radius text fs sp sa color => rfl,
    fun canvas x0 y0 x1 y1 th color => rfl, fun canvas x0 y0 x1 y1 th color => rfl,
    fun canvas cx cy radius color => rfl⟩
  · simp only [render_instrument_scene, build_dial_commands, h1, h2, h3, h4, h5,
      Option.map_some', if_true, eq_self_iff_true, List.append_assoc, List.append_nil,
      List.nil_append]
  · intro cmd hmem
    obtain ⟨l, hl, hcmd⟩ := List.mem_flatten.mp hmem
    obtain ⟨i, _, hi⟩ := List.mem_map.mp hl
    rw [← hi] at hcmd
    unfold dial_tick_group at hcmd
    rcases List.mem_append.mp hcmd with h' | h'
    · rcases List.mem_append.mp h' with h'' | h''
      · rw [List.mem_singleton.mp h'']
        left
        exact ⟨_, _, _, _, _, _, _, rfl⟩
      · by_cases hc : i < config.ticks_count - 1
        · rw [if_pos hc] at h''
          obtain ⟨j, _, hj⟩ := List.mem_map.mp h''
          rw [← hj]
          left
          exact ⟨_, _, _, _, _, _, _, rfl⟩
        · rw [if_neg hc] at h''
          simp at h''
    · rw [List.mem_singleton.mp h']
      right
      exact ⟨_, _, _, _, _, rfl⟩
  · intro commands cmd canvas
    simp [scene_render]

/- Concrete witness state for the scene-order theorem. -/

/-- A concrete needle. -/
def nd9 : Needle := { pos := 1/2, target_pos := 1, phase := 0 }

/-- Concrete highlight bounds. -/
def hb9 : HighlightBounds := { lower := 20, upper := 80, target_lower := 20, target_upper := 80 }

/-- A concrete out-of-range state with one needle, bounds and a readout. -/
def st9 : AppState :=
  { needle1 := some nd9, needle2 := none,
    current_values := { needle1 := some 150, readout := some 150 },
    min_value := 0, max_value := 100,
    highlight_bounds := some hb9, highlight_override := none }

theorem scene_order_spec_witness :
    render_instrument_scene ops0 st9 {} 100 100 =
      [DrawCommand.Clear (255, 255, 255)]
      ++ build_dial_highlight_commands (Dial.new 100 100 {})
           (st9.min_value, st9.max_value) (some hb9.get_bounds) {}
      ++ [DrawCommand.Arc (Dial.new 100 100 {}).cx (Dial.new 100 100 {}).cy
            (Dial.new 100 100 {}).r (Dial.new 100 100 {}).thickness
            (Dial.new 100 100 {}).start_angle (Dial.new 100 100 {}).arc_span
            (255, 0, 0)]
      ++ ((List.range (({} : InstrumentConfig)).ticks_count).map
            (dial_tick_group ops0 (Dial.new 100 100 {}) (st9.min_value, st9.max_value)
              (255, 0, 0) {})).flatten
      ++ build_curved_text_commands (Dial.new 100 100 {}) (255, 0, 0) {}
      ++ build_needle_commands ops0 nd9 (Dial.new 100 100 {}) (255, 0, 0) {}
      ++ build_readout_commands ops0 100 100 150 (255, 0, 0) {}
      ++ build_warning_commands (Dial.new 100 100 {}) {} :=
  (scene_order_spec ops0 tr0 {} st9 100 100 nd9 hb9 150 rfl rfl rfl rfl (by decide)).1

/- ============================================================
   The public `Instrument` interface and its setters
   ============================================================ -/

/-- Model of `InstrumentState`. -/
structure InstrumentState where
  primary_value : ℚ
  secondary_value : Option ℚ
  readout : Option String
  current_values : ValueMap
deriving DecidableEq

/-- The public `Instrument` struct. -/
structure Instrument where
  config : InstrumentConfig
  state : InstrumentState
deriving DecidableEq

/-- Model of `Instrument::new`. -/
def Instrument.new (config : InstrumentConfig) : Instrument :=
  { config := config,
    state := { primary_value := config.range.1,
               secondary_value := if config.dual_needle then some config.range.1 else none,
               readout := none,
               current_values := {} } }

/-- Model of `Instrument::set_value`: clamp into the configured range, store in the
state and in the `needle1` and `readout` entries. -/
def Instrument.set_value (inst : Instrument) (value : ℚ) : Instrument :=
  let clamped := rclamp value inst.config.range.1 inst.config.range.2
  { inst with state := { inst.state with
      primary_value := clamped,
      current_values := { inst.state.current_values with
        needle1 := some clamped, readout := some clamped } } }

/-- Model of `Instrument::set_primary_value`: clamp and store in the state and the
`needle1` entry. -/
def Instrument.set_primary_value (inst : Instrument) (value : ℚ) : Instrument :=
  let clamped := rclamp value inst.config.range.1 inst.config.range.2
  { inst with state := { inst.state with
      primary_value := clamped,
      current_values := { inst.state.current_values with needle1 := some clamped } } }

/-- Model of `Instrument::set_secondary_value`: only on a dual-needle instrument,
clamp and store in the state and the `needle2` entry. -/
def Instrument.set_secondary_value (inst : Instrument) (value : ℚ) : Instrument :=
  if inst.config.dual_needle then
    let clamped := rclamp value inst.config.range.1 inst.config.range.2
    { inst with state := { inst.state with
        secondary_value := some clamped,
        current_values := { inst.state.current_values with needle2 := some clamped } } }
  else inst

/-- The needle entries of a value map all lie within `[lo, hi]`. -/
def needle_entries_in_range (vm : ValueMap) (lo hi : ℚ) : Prop :=
  (∀ v, vm.needle1 = some v → lo ≤ v ∧ v ≤ hi) ∧
  (∀ v, vm.needle2 = some v → lo ≤ v ∧ v ≤ hi)

theorem drained_not_out_of_range (lo hi : ℚ) (vm : ValueMap) (rng : Rng)
    (hinv : needle_entries_in_range vm lo hi) :
    ((AppState.new lo hi).update [vm] rng).is_out_of_range = false := by
  obtain ⟨hcur, hmn, hmx, -, -⟩ := update_drained_shape rng (AppState.new lo hi) [vm] vm rfl
  rw [is_out_of_range_false_iff]
  constructor <;> intro v hv
  · rw [hcur] at hv
    rw [hmn, hmx]
    exact hinv.1 v hv
  · rw [hcur] at hv
    rw [hmn, hmx]
    exact hinv.2 v hv

/-- C10 counterexample: on a single-needle instrument
(`dual_needle = false`), `Instrument::set_secondary_value` stores nothing:
the `needle2` entry stays absent (and so does the secondary value),
refuting the claim that every one of the three setters stores the clamped
value. -/
theorem set_secondary_value_noop_when_single :
    ((Instrument.new {}).set_secondary_value 50).state.current_values.needle2 ≠
      some (rclamp 50 (Instrument.new {}).config.range.1 (Instrument.new {}).config.range.2) ∧
    ((Instrument.new {}).set_secondary_value 50).state.current_values.needle2 = none ∧
    ((Instrument.new {}).set_secondary_value 50).state.secondary_value = none := by
  refine ⟨?_, rfl, rfl⟩
  intro h
  simp [Instrument.new, Instrument.set_secondary_value, InstrumentConfig.dual_needle] at h

/-- C10 (amended). For `range.0 ≤ range.1` and an instrument whose needle
entries are within range: `set_value` and `set_primary_value` store the
value clamped into the configured range both in the instrument state and
in their `needle1` (and, for `set_value`, `readout`) entries of
`current_values`; `set_secondary_value` does so for `needle2` only when
`dual_needle` is configured and is a no-op otherwise; the clamped value
always lies within the range, and after draining the resulting value map
the out-of-range predicate is false. -/
theorem setters_clamp_and_stay_in_range (inst : Instrument) (value : ℚ) (rng : Rng)
    (hr : inst.config.range.1 ≤ inst.config.range.2)
    (hinv : needle_entries_in_range inst.state.current_values inst.config.range.1
      inst.config.range.2) :
    ((inst.set_value value).state.primary_value =
        rclamp value inst.config.range.1 inst.config.range.2 ∧
      (inst.set_value value).state.current_values.needle1 =
        some (rclamp value inst.config.range.1 inst.config.range.2) ∧
      (inst.set_value value).state.current_values.readout =
        some (rclamp value inst.config.range.1 inst.config.range.2) ∧
      inst.config.range.1 ≤ rclamp value inst.config.range.1 inst.config.range.2 ∧
      rclamp value inst.config.range.1 inst.config.range.2 ≤ inst.config.range.2 ∧
      needle_entries_in_range (inst.set_value value).state.current_values
        inst.config.range.1 inst.config.range.2 ∧
      ((AppState.new inst.config.range.1 inst.config.range.2).update
        [(inst.set_value value).state.current_values] rng).is_out_of_range = false) ∧
    ((inst.set_primary_value value).state.primary_value =
        rclamp value inst.config.range.1 inst.config.range.2 ∧
      (inst.set_primary_value value).state.current_values.needle1 =
        some (rclamp value inst.config.range.1 inst.config.range.2) ∧
      needle_entries_in_range (inst.set_primary_value value).state.current_values
        inst.config.range.1 inst.config.range.2 ∧
      ((AppState.new inst.config.range.1 inst.config.range.2).update
        [(inst.set_primary_value value).state.current_values] rng).is_out_of_range = false) ∧
    ((inst.config.dual_needle = true →
        (inst.set_secondary_value value).state.secondary_value =
          some (rclamp value inst.config.range.1 inst.config.range.2) ∧
        (inst.set_secondary_value value).state.current_values.needle2 =
          some (rclamp value inst.config.range.1 inst.config.range.2)) ∧
      (inst.config.dual_needle = false → inst.set_secondary_value value = inst) ∧
      needle_entries_in_range (inst.set_secondary_value value).state.current_values
        inst.config.range.1 inst.config.range.2 ∧
      ((AppState.new inst.config.range.1 inst.config.range.2).update
        [(inst.set_secondary_value value).state.current_values] rng).is_out_of_range = false) := by
  have hcl := rclamp_mem value inst.config.range.1 inst.config.range.2 hr
  refine ⟨⟨rfl, rfl, rfl, hcl.1, hcl.2, ?_, ?_⟩, ⟨rfl, rfl, ?_, ?_⟩, ⟨?_, ?_, ?_, ?_⟩⟩
  · constructor <;> intro v hv
    · simp only [Instrument.set_value] at hv
      rw [Option.some.injEq] at hv
      rw [← hv]
      exact hcl
    · simp only [Instrument.set_value] at hv
      exact hinv.2 v hv
  · apply drained_not_out_of_range
    constructor <;> intro v hv
    · simp only [Instrument.set_value] at hv
      rw [Option.some.injEq] at hv
      rw [← hv]
      exact hcl
    · simp only [Instrument.set_value] at hv
      exact hinv.2 v hv
  · constructor <;> intro v hv
    · simp only [Instrument.set_primary_value] at hv
      rw [Option.some.injEq] at hv
      rw [← hv]
      exact hcl
    · simp only [Instrument.set_primary_value] at hv
      exact hinv.2 v hv
  · apply drained_not_out_of_range
    constructor <;> intro v hv
    · simp only [Instrument.set_primary_value] at hv
      rw [Option.some.injEq] at hv
      rw [← hv]
      exact hcl
    · simp only [Instrument.set_primary_value] at hv
      exact hinv.2 v hv
  · intro hd
    unfold Instrument.set_secondary_value
    rw [hd]
    exact ⟨rfl, rfl⟩
  · intro hd
    unfold Instrument.set_secondary_value
    rw [hd]
    rfl
  · cases hd : inst.config.dual_needle with
    | true =>
      unfold Instrument.set_secondary_value
      rw [hd]
      constructor <;> intro v hv
      · simp only [eq_self_iff_true, if_true] at hv
        exact hinv.1 v hv
      · simp only [eq_self_iff_true, if_true] at hv
        rw [Option.some.injEq] at hv
        rw [← hv]
        exact hcl
    | false =>
      unfold Instrument.set_secondary_value
      rw [hd]
      exact hinv
  · apply drained_not_out_of_range
    cases hd : inst.config.dual_needle with
    | true =>
      unfold Instrument.set_secondary_value
      rw [hd]
      constructor <;> intro v hv
      · simp only [eq_self_iff_true, if_true] at hv
        exact hinv.1 v hv
      · simp only [eq_self_iff_true, if_true] at hv
        rw [Option.some.injEq] at hv
        rw [← hv]
        exact hcl
    | false =>
      unfold Instrument.set_secondary_value
      rw [hd]
      exact hinv

/-- A concrete dual-needle instrument for the witness. -/
def inst10 : Instrument := Instrument.new { dual_needle := true }

theorem setters_clamp_witness :
    (inst10.set_value 150).state.current_values.needle1 =
      some (rclamp 150 inst10.config.range.1 inst10.config.range.2) ∧
    ((AppState.new inst10.config.range.1 inst10.config.range.2).update
      [(inst10.set_value 150).state.current_values] {}).is_out_of_range = false ∧
    (inst10.config.dual_needle = true →
      (inst10.set_secondary_value 150).state.current_values.needle2 =
        some (rclamp 150 inst10.config.range.1 inst10.config.range.2)) := by
  have hinv : needle_entries_in_range inst10.state.current_values inst10.config.range.1
      inst10.config.range.2 := by
    constructor <;> intro v hv <;> simp [inst10, Instrument.new] at hv
  have h := setters_clamp_and_stay_in_range inst10 150 {} (by norm_num [inst10, Instrument.new])
    hinv
  exact ⟨h.1.2.1, h.1.2.2.2.2.2.2, fun hd => (h.2.2.1 hd).2⟩
